import Mathlib

/-!
Shallow embedding of the Scree-go screen-sharing signaling server
(package `ws`, `turn` and parts of `config`) together with proofs about
its room/session coordinator, its event handlers and its TURN credential
issuer.

Go maps are modelled as association lists with Go's map semantics
(lookup of an absent key yields the zero value, insertion overwrites,
deletion removes every binding of the key).  Go `xid.ID` values and
`net.IP` addresses are modelled as strings.  Randomness (`xid.New`,
`RandUserName`, `RandString`) and the IP provider are modelled as
explicitly passed data; channel sends performed through
`User.WriteTimeout` are recorded as `(recipient id, message)` pairs in an
output list, and calls to `turnServer.Disallow` are recorded as a list of
revoked usernames.
-/

/-- Association list lookup modelling a Go map read: the first binding of
the key wins, an absent key yields `none`. -/
def lookupA {α : Type} (l : List (String × α)) (k : String) : Option α :=
  match l with
  | [] => none
  | (k2, v) :: t => if k2 = k then some v else lookupA t k

/-- Go map read of a `map[...]string`: an absent key yields the zero
value `""`. -/
def lookupD (l : List (String × String)) (k : String) : String :=
  (lookupA l k).getD ""

/-- Association list insertion modelling a Go map write: overwrites the
first binding of the key, otherwise appends a new binding at the end. -/
def insertA {α : Type} (l : List (String × α)) (k : String) (v : α) : List (String × α) :=
  match l with
  | [] => [(k, v)]
  | (k2, v2) :: t => if k2 = k then (k, v) :: t else (k2, v2) :: insertA t k v

/-- Association list deletion modelling Go's `delete`: removes every
binding of the key. -/
def eraseA {α : Type} (l : List (String × α)) (k : String) : List (String × α) :=
  l.filter (fun kv => kv.1 ≠ k)

namespace outgoing

/-- Embedding of `outgoing.ICEServer`: one ICE server description sent to
a browser.  Absent JSON fields are the empty string. -/
structure ICEServer where
  URLs : List String
  Username : String
  Credential : String
  deriving Repr, DecidableEq

/-- Embedding of `outgoing.User`: one row of the room snapshot. -/
structure User where
  ID : String
  Name : String
  Streaming : Bool
  You : Bool
  Owner : Bool
  deriving Repr, DecidableEq

/-- Embedding of the outbound message types of package `outgoing` that
the embedded handlers produce.  `Room` is the room snapshot, `P2P`
payloads carry the session id and the raw SDP or ICE value. -/
inductive Message where
  | HostSession (peer id : String) (iceServers : List ICEServer)
  | ClientSession (peer id : String) (iceServers : List ICEServer)
  | Room (id : String) (users : List User)
  | EndShare (id : String)
  | HostOffer (sid value : String)
  | HostICE (sid value : String)
  | ClientAnswer (sid value : String)
  | ClientICE (sid value : String)
  deriving Repr, DecidableEq

end outgoing

namespace ws

/-- Embedding of `ws.ConnectionMode` with its three constants
`ConnectionLocal`, `ConnectionSTUN` and `ConnectionTURN`. -/
inductive ConnectionMode
  | ConnectionLocal
  | ConnectionSTUN
  | ConnectionTURN
  deriving Repr, DecidableEq

/-- Embedding of `ws.User`: a participant of a room.  The `_write`
channel is not part of the state; deliveries through it are recorded as
`(recipient id, message)` pairs in the output of each handler. -/
structure User where
  ID : String
  Addr : String
  Name : String
  Streaming : Bool
  Owner : Bool
  deriving Repr, DecidableEq, Inhabited

/-- Embedding of `ws.RoomSession`: one host to client pairing. -/
structure RoomSession where
  Host : String
  Client : String
  deriving Repr, DecidableEq

/-- Embedding of `ws.Room`. -/
structure Room where
  ID : String
  CloseOnOwnerLeave : Bool
  Mode : ConnectionMode
  Users : List (String × User)
  Sessions : List (String × RoomSession)
  deriving Repr, DecidableEq

/-- Embedding of `ws.ClientInfo`: the identity bound to one live
connection.  The outbound channel is modelled at the delivery log level. -/
structure ClientInfo where
  ID : String
  Authenticated : Bool
  AuthenticatedUser : String
  Addr : String
  deriving Repr, DecidableEq

/-- Embedding of the `config.Config` fields the hub reads. -/
structure Config where
  TurnPort : String
  deriving Repr, DecidableEq

/-- Embedding of `ws.Rooms`, the hub state: the room map (field named
`Rooms` in the source, renamed `RoomsMap` here because in Lean the field
would shadow the type), the connection-id to room-id membership map and
the configuration. -/
structure Rooms where
  RoomsMap : List (String × Room)
  connected : List (String × String)
  config : Config
  deriving Repr, DecidableEq

/-- Ambient effects of one handler execution: the result of
`rooms.turnServer.Credentials` (a function of scope id and party
address), the ip provider result `(v4, v6)` of
`rooms.config.TurnIPProvider.Get`, the value of `rooms.RandUserName()`
and the supply of fresh `xid.New()` session ids, consumed in order. -/
structure HubCtx where
  credFn : String → String → String × String
  v4 : Option String
  v6 : Option String
  randName : String
  sessionIds : List String

/-- Embedding of `Rooms.addresses`: builds the ICE URL list from the
scheme (the Go parameter named after the URL scheme), the public IPv4
and IPv6 addresses and the configured TURN port; `tcp` adds a
`?transport=tcp` variant after each UDP entry, and IPv6 literals are
bracketed. -/
def Rooms.addresses (r : Rooms) (scheme : String) (v4 v6 : Option String) (tcp : Bool) :
    List String :=
  (match v4 with
   | some ip =>
     [scheme ++ ":" ++ ip ++ ":" ++ r.config.TurnPort] ++
       (if tcp then [scheme ++ ":" ++ ip ++ ":" ++ r.config.TurnPort ++ "?transport=tcp"] else [])
   | none => []) ++
  (match v6 with
   | some ip =>
     [scheme ++ ":[" ++ ip ++ "]:" ++ r.config.TurnPort] ++
       (if tcp then [scheme ++ ":[" ++ ip ++ "]:" ++ r.config.TurnPort ++ "?transport=tcp"] else [])
   | none => [])

/-- Embedding of the `switch r.Mode` block of `Room.newSession`: the ICE
server lists offered to host and client, as a function of the room mode,
the fresh session id and the two parties' addresses. -/
def sessionICE (ctx : HubCtx) (rooms : Rooms) (mode : ConnectionMode) (sid : String)
    (hostAddr clientAddr : String) :
    List outgoing.ICEServer × List outgoing.ICEServer :=
  match mode with
  | .ConnectionLocal => ([], [])
  | .ConnectionSTUN =>
    ([{ URLs := rooms.addresses "stun" ctx.v4 ctx.v6 false, Username := "", Credential := "" }],
     [{ URLs := rooms.addresses "stun" ctx.v4 ctx.v6 false, Username := "", Credential := "" }])
  | .ConnectionTURN =>
    let hostCred := ctx.credFn (sid ++ "host") hostAddr
    let clientCred := ctx.credFn (sid ++ "client") clientAddr
    ([{ URLs := rooms.addresses "turn" ctx.v4 ctx.v6 true,
        Username := hostCred.1, Credential := hostCred.2 }],
     [{ URLs := rooms.addresses "turn" ctx.v4 ctx.v6 true,
        Username := clientCred.1, Credential := clientCred.2 }])

/-- Embedding of `Room.newSession`: stores the fresh session under `sid`
(generated by `xid.New()` in the source and supplied here), selects the
ICE material per connection mode, and sends a `HostSession` message to
the host and a `ClientSession` message to the client.  Party addresses
are read from the room's user map; the source would dereference a nil
pointer for an absent party, theorems therefore assume membership where
the addresses matter. -/
def Room.newSession (ctx : HubCtx) (rooms : Rooms) (r : Room) (host client : String)
    (sid : String) : Room × List (String × outgoing.Message) :=
  let r1 := { r with Sessions := insertA r.Sessions sid { Host := host, Client := client } }
  let hostAddr := ((lookupA r.Users host).getD default).Addr
  let clientAddr := ((lookupA r.Users client).getD default).Addr
  let ice := sessionICE ctx rooms r.Mode sid hostAddr clientAddr
  (r1, [(host, outgoing.Message.HostSession client sid ice.1),
        (client, outgoing.Message.ClientSession host sid ice.2)])

/-- Embedding of `Room.closeSession`: in TURN mode the credentials
scoped to the session id with suffixes `host` and `client` are revoked
through `turnServer.Disallow` (returned as the revocation list), and the
session is deleted from the room's session map. -/
def Room.closeSession (r : Room) (id : String) : Room × List String :=
  let revoked :=
    if r.Mode = ConnectionMode.ConnectionTURN then [id ++ "host", id ++ "client"] else []
  ({ r with Sessions := eraseA r.Sessions id }, revoked)

/-- Embedding of the comparison closure passed to `sort.Slice` in
`Room.notifyInfoChanged`: owners first, then streaming users, then
case-sensitive name ascending. -/
def usersSortLess (left right : outgoing.User) : Bool :=
  if left.Owner ≠ right.Owner then left.Owner
  else if left.Streaming ≠ right.Streaming then left.Streaming
  else decide (left.Name < right.Name)

/-- Non-strict counterpart of `usersSortLess` used to run the sort:
`sort.Slice` guarantees a result with no inversion with respect to the
comparison closure, which is exactly sortedness by this relation. -/
def usersSortLE (a b : outgoing.User) : Bool :=
  !usersSortLess b a

/-- Insertion of an element into a list ahead of the first element it
compares below, the inner step of the sort modelling `sort.Slice`. -/
def insertSorted {α : Type} (le : α → α → Bool) (a : α) : List α → List α
  | [] => [a]
  | b :: t => if le a b then a :: b :: t else b :: insertSorted le a t

/-- Sort modelling `sort.Slice(users, less)`: `sort.Slice` promises a
permutation with no inversion with respect to the comparison closure
(and nothing about the order of ties, its sort being unstable), which
this insertion sort delivers. -/
def sortBy {α : Type} (le : α → α → Bool) : List α → List α
  | [] => []
  | a :: t => insertSorted le a (sortBy le t)

/-- Embedding of `Room.notifyInfoChanged`: for every member a snapshot
of all users is built, the member's own record is flagged `You` (pointer
equality `current == user` in the source, id equality here), the list is
sorted with the `usersSortLess` closure, and the snapshot is sent to
that member. -/
def Room.notifyInfoChanged (r : Room) : List (String × outgoing.Message) :=
  r.Users.map (fun kv =>
    let users := sortBy usersSortLE (r.Users.map (fun kv2 =>
      ({ ID := kv2.2.ID, Name := kv2.2.Name, Streaming := kv2.2.Streaming,
         You := kv2.2.ID == kv.2.ID, Owner := kv2.2.Owner } : outgoing.User)))
    (kv.1, outgoing.Message.Room r.ID users))

/-- Embedding of `Rooms.CurrentRoom`: distinguishes a connection with no
membership record, an empty membership record, and a recorded room id
that no longer resolves. -/
def Rooms.CurrentRoom (r : Rooms) (info : ClientInfo) : Except String Room :=
  match lookupA r.connected info.ID with
  | none => Except.error "not connected"
  | some roomID =>
    if roomID = "" then Except.error "not in a room"
    else
      match lookupA r.RoomsMap roomID with
      | none => Except.error ("room with id " ++ roomID ++ " does not exist")
      | some room => Except.ok room

/-- Embedding of `outgoing.P2PMessage`: the session id and the raw SDP
or ICE payload of a relay event. -/
structure P2PMessage where
  SID : String
  Value : String
  deriving Repr, DecidableEq

/-- Embedding of `HostOffer.Execute`: requires the sender to be in a
room; an unknown session id is logged and ignored (success, no state
change, no message); a sender that is not the session's host is refused
with permission denied; otherwise the payload is relayed to the
session's client re-tagged as an outgoing `HostOffer`. -/
def HostOffer.Execute (e : P2PMessage) (rooms : Rooms) (current : ClientInfo) :
    Except String (Rooms × List (String × outgoing.Message)) :=
  match rooms.CurrentRoom current with
  | Except.error msg => Except.error msg
  | Except.ok room =>
    match lookupA room.Sessions e.SID with
    | none => Except.ok (rooms, [])
    | some session =>
      if session.Host ≠ current.ID then
        Except.error ("permission denied for session " ++ e.SID)
      else
        Except.ok (rooms, [(session.Client, outgoing.Message.HostOffer e.SID e.Value)])

/-- Embedding of `HostICE.Execute`, identical to `HostOffer.Execute` up
to the outgoing message tag. -/
def HostICE.Execute (e : P2PMessage) (rooms : Rooms) (current : ClientInfo) :
    Except String (Rooms × List (String × outgoing.Message)) :=
  match rooms.CurrentRoom current with
  | Except.error msg => Except.error msg
  | Except.ok room =>
    match lookupA room.Sessions e.SID with
    | none => Except.ok (rooms, [])
    | some session =>
      if session.Host ≠ current.ID then
        Except.error ("permission denied for session " ++ e.SID)
      else
        Except.ok (rooms, [(session.Client, outgoing.Message.HostICE e.SID e.Value)])

/-- Embedding of `ClientAnswer.Execute`: the mirrored client-side relay,
authorizing the session's client and relaying to the host. -/
def ClientAnswer.Execute (e : P2PMessage) (rooms : Rooms) (current : ClientInfo) :
    Except String (Rooms × List (String × outgoing.Message)) :=
  match rooms.CurrentRoom current with
  | Except.error msg => Except.error msg
  | Except.ok room =>
    match lookupA room.Sessions e.SID with
    | none => Except.ok (rooms, [])
    | some session =>
      if session.Client ≠ current.ID then
        Except.error ("permission denied for session " ++ e.SID)
      else
        Except.ok (rooms, [(session.Host, outgoing.Message.ClientAnswer e.SID e.Value)])

/-- Modelled from the spec: the `clientice` handler is not among the
available source files (only `hostoffer`, `hostice` and `clientanswer`
are); per the spec's handler table it mirrors `hostice` with the roles
swapped: session must exist, sender must be the session's client, the
candidate is relayed to the session's host. -/
def ClientICE.Execute (e : P2PMessage) (rooms : Rooms) (current : ClientInfo) :
    Except String (Rooms × List (String × outgoing.Message)) :=
  match rooms.CurrentRoom current with
  | Except.error msg => Except.error msg
  | Except.ok room =>
    match lookupA room.Sessions e.SID with
    | none => Except.ok (rooms, [])
    | some session =>
      if session.Client ≠ current.ID then
        Except.error ("permission denied for session " ++ e.SID)
      else
        Except.ok (rooms, [(session.Host, outgoing.Message.ClientICE e.SID e.Value)])

/-- Embedding of the `join` event payload. -/
structure Join where
  ID : String
  UserName : String
  deriving Repr, DecidableEq

/-- Embedding of the display-name selection block of `Join.Execute`: the
supplied username, overridden by the authenticated username when the
sender is authenticated, with a random name when the result is empty. -/
def joinName (ctx : HubCtx) (e : Join) (current : ClientInfo) : String :=
  let name0 := if current.Authenticated then current.AuthenticatedUser else e.UserName
  if name0 = "" then ctx.randName else name0

/-- User record that `Join.Execute` inserts for the joining sender:
non-owner, non-streaming, bound to the sender's address and outbound
channel. -/
def joinUser (ctx : HubCtx) (e : Join) (current : ClientInfo) : User :=
  { ID := current.ID, Addr := current.Addr, Name := joinName ctx e current,
    Streaming := false, Owner := false }

/-- Members the join-time catch-up loop opens sessions for: the
already-streaming users other than the joiner. -/
def joinStreamers (current : ClientInfo) (l : List (String × User)) : List (String × User) :=
  l.filter (fun kv => !(current.ID == kv.2.ID) && kv.2.Streaming)

/-- Embedding of the catch-up loop at the end of `Join.Execute`: for
every member of the (already updated) user map that is streaming and is
not the joiner, a session is opened with that member as host and the
joiner as client.  The fresh session ids are consumed from the supply in
order. -/
def joinCatchUp (ctx : HubCtx) (rooms : Rooms) (current : ClientInfo) :
    List (String × User) → List String → Room → Room × List (String × outgoing.Message)
  | [], _, r => (r, [])
  | kv :: rest, sids, r =>
    if current.ID = kv.2.ID ∨ kv.2.Streaming = false then
      joinCatchUp ctx rooms current rest sids r
    else
      let s := Room.newSession ctx rooms r kv.2.ID current.ID (sids.headD "")
      let t := joinCatchUp ctx rooms current rest sids.tail s.1
      (t.1, s.2 ++ t.2)

/-- Embedding of `Join.Execute`: fails when the sender's membership
record is non-empty or the room id does not resolve; otherwise picks the
display name (authenticated username when authenticated, else the
supplied username, else `rooms.RandUserName()`), inserts the sender as a
non-owner non-streaming user, records the membership, broadcasts the
room info, and opens a session to every already-streaming member with
the sender as client.  The ip provider is modelled as succeeding with
`(ctx.v4, ctx.v6)`. -/
def Join.Execute (ctx : HubCtx) (e : Join) (rooms : Rooms) (current : ClientInfo) :
    Except String (Rooms × List (String × outgoing.Message)) :=
  if lookupD rooms.connected current.ID ≠ "" then
    Except.error "cannot join room, you are already in one"
  else
    match lookupA rooms.RoomsMap e.ID with
    | none => Except.error ("room with id " ++ e.ID ++ " does not exist")
    | some room =>
      let room1 := { room with Users := insertA room.Users current.ID (joinUser ctx e current) }
      let catchUp := joinCatchUp ctx rooms current room1.Users ctx.sessionIds room1
      Except.ok
        ({ rooms with
            RoomsMap := insertA rooms.RoomsMap e.ID catchUp.1,
            connected := insertA rooms.connected current.ID room1.ID },
         room1.notifyInfoChanged ++ catchUp.2)

/-- Embedding of the session-closing loop of `Rooms.closeRoom`: closes
each listed session in turn, accumulating the revoked usernames. -/
def closeAllSessions : List (String × RoomSession) → Room → Room × List String
  | [], r => (r, [])
  | kv :: rest, r =>
    let s := r.closeSession kv.1
    let t := closeAllSessions rest s.1
    (t.1, s.2 ++ t.2)

/-- Embedding of `Rooms.closeRoom`: a no-op when the room id is absent;
otherwise every session of the room is closed (revoking its TURN
credentials in TURN mode) and the room is deleted from the room map. -/
def Rooms.closeRoom (rooms : Rooms) (roomID : String) : Rooms × List String :=
  match lookupA rooms.RoomsMap roomID with
  | none => (rooms, [])
  | some room =>
    let closed := closeAllSessions room.Sessions room
    ({ rooms with RoomsMap := eraseA rooms.RoomsMap roomID }, closed.2)

/-- Modelled from the spec: the session-closing part of the
`Disconnected` handler, whose source file is not available (only its
callers in `client.go` and `rooms.go` are).  Per the spec's handler
table, for every session whose host is the leaving sender the client is
notified with an end-of-share signal and the session is closed; the loop
shape mirrors the available `StopShare.Execute`. -/
def closeSessionsOfHost (hostID : String) :
    List (String × RoomSession) → Room → Room × List (String × outgoing.Message) × List String
  | [], r => (r, [], [])
  | kv :: rest, r =>
    if kv.2.Host = hostID then
      let notify :=
        match lookupA r.Users kv.2.Client with
        | some client => [(client.ID, outgoing.Message.EndShare kv.1)]
        | none => []
      let s := r.closeSession kv.1
      let t := closeSessionsOfHost hostID rest s.1
      (t.1, notify ++ t.2.1, s.2 ++ t.2.2)
    else
      closeSessionsOfHost hostID rest r

/-- Modelled from the spec: the `Disconnected` event handler, whose
source file is not available.  Per the spec it never fails and performs
best-effort cleanup: it removes the sender from the membership map and
from its room's user map, closes every session the sender was hosting
(notifying the peer), tears the whole room down when the sender owned a
room configured to close on owner departure, and otherwise re-broadcasts
the room info.  Returns the new state, the sent messages and the revoked
TURN usernames. -/
def Disconnected.Execute (rooms : Rooms) (current : ClientInfo) :
    Rooms × List (String × outgoing.Message) × List String :=
  let rooms1 := { rooms with connected := eraseA rooms.connected current.ID }
  match lookupA rooms.connected current.ID with
  | none => (rooms1, [], [])
  | some roomID =>
    match lookupA rooms1.RoomsMap roomID with
    | none => (rooms1, [], [])
    | some room =>
      let wasOwner :=
        match lookupA room.Users current.ID with
        | some u => u.Owner
        | none => false
      let room1 := { room with Users := eraseA room.Users current.ID }
      let closed := closeSessionsOfHost current.ID room1.Sessions room1
      let rooms2 := { rooms1 with RoomsMap := insertA rooms1.RoomsMap roomID closed.1 }
      if wasOwner && closed.1.CloseOnOwnerLeave then
        let torn := rooms2.closeRoom roomID
        (torn.1, closed.2.1, closed.2.2 ++ torn.2)
      else
        (rooms2, closed.2.1 ++ closed.1.notifyInfoChanged, closed.2.2)

/-- Join and disconnect events as consumed by the hub's `Start` loop for
the membership-exclusivity analysis.  A join event carries the ambient
effect data (random name, ip provider result, credential function and
session-id supply) that `Join.Execute` draws on. -/
inductive HubEvent where
  | joinEv (ctx : HubCtx) (e : Join) (current : ClientInfo)
  | disconnectedEv (current : ClientInfo)

/-- Embedding of one iteration of the hub's `Start` loop restricted to
join and disconnect events: a handler error makes the hub disconnect the
offending sender (it executes a `Disconnected` event for it). -/
def applyEvent (s : Rooms) : HubEvent → Rooms
  | HubEvent.joinEv ctx e current =>
    match Join.Execute ctx e s current with
    | Except.ok res => res.1
    | Except.error _ => (Disconnected.Execute s current).1
  | HubEvent.disconnectedEv current => (Disconnected.Execute s current).1

/-- Hub state after processing a sequence of join and disconnect
events one at a time, in order. -/
def runEvents (s : Rooms) (evs : List HubEvent) : Rooms :=
  evs.foldl applyEvent s

/-- Failure reason of `Rooms.Count` when the hub does not accept the
probe in time (string copied from the source). -/
def acceptTimeoutReason : String := "main loop didn't accept a message within 5 second"

/-- Failure reason of `Rooms.Count` when the hub does not answer in time
(string copied from the source). -/
def respondTimeoutReason : String := "main loop didn't respond to a message within 5 second"

/-- Time-parameterized embedding of `Rooms.Count`.  The source creates a
single `timeout := time.After(5 * time.Second)` channel and uses it in
both selects, so both waits share one absolute deadline 5 seconds after
the call.  `acceptAfter` is the time (seconds after the call) at which
the hub would take the probe from the inbox and `replyAfter` the further
time until the hub's answer would arrive; `roomCount` is the hub's
answer. -/
def Rooms.Count (acceptAfter replyAfter : Nat) (roomCount : Int) : Int × String :=
  if 5 ≤ acceptAfter then (-1, acceptTimeoutReason)
  else if 5 ≤ acceptAfter + replyAfter then (-1, respondTimeoutReason)
  else (roomCount, "")

/-- Written from the spec sentence under test for the refinement
comparison, not from the source: a `Count` in which the reply wait gets
its own full fixed timeout of the same length, independent of how long
the enqueue wait took. -/
def CountIndependentTimeouts (acceptAfter replyAfter : Nat) (roomCount : Int) : Int × String :=
  if 5 ≤ acceptAfter then (-1, acceptTimeoutReason)
  else if 5 ≤ replyAfter then (-1, respondTimeoutReason)
  else (roomCount, "")

/-- Outcome of one `writeTimeout` call. -/
inductive DeliveryOutcome
  | delivered
  | droppedWithWarning
  deriving Repr, DecidableEq

/-- Result of one `writeTimeout` call: its outcome, the time after which
the call returned, and the number of copies of the message handed to the
outbound queue. -/
structure WriteResult where
  outcome : DeliveryOutcome
  elapsedSeconds : Nat
  deliveredCopies : Nat
  deriving Repr, DecidableEq

/-- Time-parameterized embedding of the generic `writeTimeout` helper:
a select between `time.After(2 * time.Second)` and the channel send.
`acceptAfter` is the time at which the queue's consumer would take the
message; the send wins the select when that happens before the
2-second timer fires, otherwise the message is dropped with a logged
warning and is never retried. -/
def writeTimeout (acceptAfter : Nat) : WriteResult :=
  if acceptAfter < 2 then
    { outcome := DeliveryOutcome.delivered, elapsedSeconds := acceptAfter, deliveredCopies := 1 }
  else
    { outcome := DeliveryOutcome.droppedWithWarning, elapsedSeconds := 2, deliveredCopies := 0 }

/-- Hub-state invariant tying the membership map to the room contents:
every key of the room map is a non-empty id equal to the stored room's
own id, and every user present in a room's user map has its membership
record set to that room's key.  It holds for the states the out-of-core
room-creation path produces and is preserved by the join and disconnect
transitions. -/
def RoomsInv (s : Rooms) : Prop :=
  ∀ rid room, lookupA s.RoomsMap rid = some room →
    rid ≠ "" ∧ room.ID = rid ∧
    ∀ uid u, lookupA room.Users uid = some u → lookupD s.connected uid = rid

/-- Membership exclusivity: a connection id is present in the user map
of at most one room of the hub state. -/
def memberOfAtMostOneRoom (s : Rooms) : Prop :=
  ∀ uid rid1 rid2 r1 r2,
    lookupA s.RoomsMap rid1 = some r1 → lookupA s.RoomsMap rid2 = some r2 →
    (lookupA r1.Users uid).isSome → (lookupA r2.Users uid).isSome → rid1 = rid2

/-- Sample TURN-mode room with two users and one open session, used by
the concrete witnesses below. -/
def sampleTurnRoom : Room :=
  { ID := "r1", CloseOnOwnerLeave := true, Mode := ConnectionMode.ConnectionTURN,
    Users := [("h", { ID := "h", Addr := "10.0.0.1", Name := "Bob",
                      Streaming := true, Owner := true }),
              ("c", { ID := "c", Addr := "10.0.0.2", Name := "Amy",
                      Streaming := false, Owner := false })],
    Sessions := [("s1", { Host := "h", Client := "c" })] }

/-- Sample hub state holding `sampleTurnRoom`, used by the concrete
witnesses below. -/
def sampleRooms : Rooms :=
  { RoomsMap := [("r1", sampleTurnRoom)], connected := [("h", "r1"), ("c", "r1")],
    config := { TurnPort := "3478" } }

/-- Sample connection identity of the member `h` of `sampleTurnRoom`,
used by the concrete witnesses below. -/
def sampleHostInfo : ClientInfo :=
  { ID := "h", Authenticated := false, AuthenticatedUser := "", Addr := "10.0.0.1" }

/-- Sample ambient-effect data used by the concrete witnesses below. -/
def sampleCtx : HubCtx :=
  { credFn := fun s a => (s, a ++ "-pw"), v4 := some "1.2.3.4", v6 := some "abcd::1",
    randName := "rn", sessionIds := ["s9", "s10"] }

/-- Sample room of the spec's broadcast-ordering example: A is the
streaming owner named Bob, B streams and is named Amy, C is idle and is
named Zoe. -/
def sampleSortRoom : Room :=
  { ID := "rs", CloseOnOwnerLeave := false, Mode := ConnectionMode.ConnectionLocal,
    Users :=
      [("idA", { ID := "idA", Addr := "a1", Name := "Bob", Streaming := true, Owner := true }),
       ("idB", { ID := "idB", Addr := "a2", Name := "Amy", Streaming := true, Owner := false }),
       ("idC", { ID := "idC", Addr := "a3", Name := "Zoe", Streaming := false, Owner := false })],
    Sessions := [] }

end ws

namespace turn

/-- Embedding of the TURN realm constant. -/
def Realm : String := "screego"

/-- Embedding of `turn.Entry`: the bound address and the derived
authentication key stored for one issued username. -/
structure Entry where
  addr : String
  password : List Nat
  deriving Repr, DecidableEq

/-- Embedding of `turn.InternalServer`: the locked username lookup
table of the co-located issuer (the lock itself has no observable
state). -/
structure InternalServer where
  lookup : List (String × Entry)
  deriving Repr, DecidableEq

/-- Embedding of `InternalServer.allow`: derives the storage-ready key
with `turn.GenerateAuthKey(username, Realm, password)` (the pion
library key-derivation function, passed in as `genKey`) and records it
together with the caller's address. -/
def InternalServer.allow (genKey : String → String → String → List Nat)
    (a : InternalServer) (username password addr : String) : InternalServer :=
  { lookup := insertA a.lookup username { addr := addr, password := genKey username Realm password } }

/-- Embedding of `InternalServer.Disallow`: deletes the username's
entry. -/
def InternalServer.Disallow (a : InternalServer) (username : String) : InternalServer :=
  { lookup := eraseA a.lookup username }

/-- Embedding of `InternalServer.authenticate`, the TURN relay's
authentication callback: looks the username up and returns the stored
derived key, or rejects when the username is unknown.  The requester
address and realm arguments are only logged by the source. -/
def InternalServer.authenticate (a : InternalServer) (username realm addr : String) :
    Option (List Nat) :=
  match lookupA a.lookup username with
  | none => none
  | some entry => some entry.password

/-- Embedding of `InternalServer.Credentials`: generates a random
20-character password (`util.RandString(20)`, passed in as
`randPassword`), records it via `allow` bound to the caller's address,
and returns the id itself as username together with the password, plus
the updated server state. -/
def InternalServer.Credentials (genKey : String → String → String → List Nat)
    (randPassword : String) (a : InternalServer) (id addr : String) :
    (String × String) × InternalServer :=
  ((id, randPassword), a.allow genKey id randPassword addr)

/-- Embedding of `turn.ExternalServer`: the pre-shared secret (a byte
slice) and the credential time-to-live, in seconds (the source stores a
`time.Duration` of 24 hours and only ever observes it through
`time.Now().Add(ttl).Unix()`). -/
structure ExternalServer where
  secret : List Nat
  ttlSeconds : Int
  deriving Repr, DecidableEq

/-- Embedding of `newExternalServer`: 24-hour TTL and the configured
secret. -/
def newExternalServer (secret : List Nat) : ExternalServer :=
  { secret := secret, ttlSeconds := 24 * 60 * 60 }

/-- Block size of SHA-1, the block size `crypto/hmac` uses for an
HMAC-SHA1. -/
def sha1BlockSize : Nat := 64

/-- Embedding of `crypto/hmac` (RFC 2104) over an abstract compression
function: a key longer than the block size is first hashed, the key is
zero-padded to the block size, and the result is
`hash(opad ++ hash(ipad ++ msg))`.  The SHA-1 compression function
itself is library code outside this repository and stays a parameter. -/
def hmac (hash : List Nat → List Nat) (blockSize : Nat) (key msg : List Nat) : List Nat :=
  let key1 := if blockSize < key.length then hash key else key
  let key2 := key1 ++ List.replicate (blockSize - key1.length) 0
  let opad := key2.map (fun b => Nat.xor b 92)
  let ipad := key2.map (fun b => Nat.xor b 54)
  hash (opad ++ hash (ipad ++ msg))

/-- Alphabet of `base64.StdEncoding`. -/
def base64Alphabet : List Char :=
  "ABCDEFGHIJKLMNOPQRSTUVWXYZabcdefghijklmnopqrstuvwxyz0123456789+/".data

/-- Character of the standard base64 alphabet at the given 6-bit
index. -/
def b64Char (n : Nat) : Char := base64Alphabet.getD n (Char.ofNat 63)

/-- Embedding of `base64.StdEncoding.EncodeToString`: groups of three
bytes become four alphabet characters, with trailing groups padded with
the pad character. -/
def base64Encode : List Nat → String
  | [] => ""
  | [b0] =>
    String.mk [b64Char (b0 / 4), b64Char (b0 % 4 * 16)] ++ "=="
  | [b0, b1] =>
    String.mk [b64Char (b0 / 4), b64Char (b0 % 4 * 16 + b1 / 16), b64Char (b1 % 16 * 4)] ++ "="
  | b0 :: b1 :: b2 :: rest =>
    String.mk [b64Char (b0 / 4), b64Char (b0 % 4 * 16 + b1 / 16),
               b64Char (b1 % 16 * 4 + b2 / 64), b64Char (b2 % 64)] ++ base64Encode rest

/-- UTF-8 bytes of a string, as the `[]byte(username)` conversion in the
source. -/
def strBytes (s : String) : List Nat :=
  s.toUTF8.toList.map (fun b => b.toNat)

/-- Embedding of `ExternalServer.Credentials`: under a clock reading
`now` (Unix seconds) the username is the literal string
`"<unixExpirySeconds>:<id>"` with expiry `now + ttl`, and the password
is the standard base64 encoding of the keyed HMAC-SHA1 of that exact
username under the shared secret. -/
def ExternalServer.Credentials (hash : List Nat → List Nat) (a : ExternalServer)
    (now : Int) (id : String) : String × String :=
  let username := toString (now + a.ttlSeconds) ++ ":" ++ id
  let mac := hmac hash sha1BlockSize a.secret (strBytes username)
  let password := base64Encode mac
  (username, password)

/-- Independent verifier-side recomputation of the external credential
signature: the keyed hash of a username under a shared secret, base64
encoded. -/
def recomputeSignature (hash : List Nat → List Nat) (secret : List Nat)
    (username : String) : String :=
  base64Encode (hmac hash sha1BlockSize secret (strBytes username))

end turn

theorem lookupA_insertA_self {α : Type} (l : List (String × α)) (k : String) (v : α) :
    lookupA (insertA l k v) k = some v := by
  induction l with
  | nil => simp [insertA, lookupA]
  | cons kv t ih =>
    by_cases h : kv.1 = k
    · simp [insertA, lookupA, h]
    · simp [insertA, lookupA, h, ih]

theorem lookupA_insertA_ne {α : Type} (l : List (String × α)) (k k2 : String) (v : α)
    (h : k ≠ k2) : lookupA (insertA l k v) k2 = lookupA l k2 := by
  induction l with
  | nil => simp [insertA, lookupA, h]
  | cons kv t ih =>
    by_cases hk : kv.1 = k
    · simp [insertA, lookupA, hk, h]
    · simp only [insertA, lookupA, hk, if_false]
      by_cases hk2 : kv.1 = k2
      · simp [lookupA, hk2]
      · simp [lookupA, hk2, ih]

theorem lookupA_eraseA_self {α : Type} (l : List (String × α)) (k : String) :
    lookupA (eraseA l k) k = none := by
  induction l with
  | nil => simp [eraseA, lookupA]
  | cons kv t ih =>
    by_cases h : kv.1 = k
    · simpa [eraseA, lookupA, h] using ih
    · simpa [eraseA, lookupA, h] using ih

theorem lookupA_eraseA_ne {α : Type} (l : List (String × α)) (k k2 : String)
    (h : k ≠ k2) : lookupA (eraseA l k) k2 = lookupA l k2 := by
  induction l with
  | nil => simp [eraseA, lookupA]
  | cons kv t ih =>
    by_cases hk : kv.1 = k
    · simpa [eraseA, lookupA, hk, h] using ih
    · by_cases hk2 : kv.1 = k2
      · simp [eraseA, lookupA, List.filter_cons, hk, hk2, Ne.symm h]
      · simpa [eraseA, lookupA, List.filter_cons, hk, hk2] using ih

theorem lookupA_eraseA_none {α : Type} (l : List (String × α)) (k k2 : String)
    (h : lookupA l k2 = none) : lookupA (eraseA l k) k2 = none := by
  by_cases hk : k = k2
  · rw [hk]; exact lookupA_eraseA_self l k2
  · rw [lookupA_eraseA_ne l k k2 hk]; exact h

theorem insertA_of_lookupA_none {α : Type} (l : List (String × α)) (k : String) (v : α)
    (h : lookupA l k = none) : insertA l k v = l ++ [(k, v)] := by
  induction l with
  | nil => simp [insertA]
  | cons kv t ih =>
    by_cases hk : kv.1 = k
    · simp [lookupA, hk] at h
    · simp only [lookupA, hk, if_false] at h
      simp [insertA, hk, ih h]

theorem lookupA_append_right {α : Type} (l l2 : List (String × α)) (k : String)
    (h : lookupA l k = none) : lookupA (l ++ l2) k = lookupA l2 k := by
  induction l with
  | nil => simp
  | cons kv t ih =>
    by_cases hk : kv.1 = k
    · simp [lookupA, hk] at h
    · simp only [lookupA, hk, if_false] at h
      simp [lookupA, hk, ih h]

/-- C10: the co-located issuer's authentication callback looks
credentials up by username only; `Credentials(id, addr)` stores the
caller's address in the entry, but `authenticate` returns the stored
derived key for any requester address whenever the username exists, so a
credential issued for one address authenticates from every address. -/
theorem internalServer_authenticate_ignores_address :
    (∀ (a : turn.InternalServer) (username realm addr1 addr2 : String),
      a.authenticate username realm addr1 = a.authenticate username realm addr2) ∧
    (∀ (a : turn.InternalServer) (username realm addr entry),
      lookupA a.lookup username = some entry →
      a.authenticate username realm addr = some entry.password) ∧
    (∀ (genKey : String → String → String → List Nat) (randPassword : String)
       (a : turn.InternalServer) (id boundAddr realm addr : String),
      lookupA ((turn.InternalServer.Credentials genKey randPassword a id boundAddr).2).lookup id
        = some { addr := boundAddr, password := genKey id turn.Realm randPassword } ∧
      (turn.InternalServer.Credentials genKey randPassword a id boundAddr).2.authenticate
          id realm addr
        = some (genKey id turn.Realm randPassword)) := by
  refine ⟨fun a username realm addr1 addr2 => rfl, ?_, ?_⟩
  · intro a username realm addr entry h
    simp [turn.InternalServer.authenticate, h]
  · intro genKey randPassword a id boundAddr realm addr
    have h : lookupA ((turn.InternalServer.Credentials genKey randPassword a id boundAddr).2).lookup id
        = some { addr := boundAddr, password := genKey id turn.Realm randPassword } := by
      simp [turn.InternalServer.Credentials, turn.InternalServer.allow]
      exact lookupA_insertA_self _ _ _
    exact ⟨h, by simp [turn.InternalServer.authenticate, h]⟩

/-- C10 witness: a concrete credential issued for address 10.0.0.1
authenticates from the different address 192.168.7.9 and yields the
derived key. -/
theorem internalServer_authenticate_ignores_address_witness :
    (turn.InternalServer.Credentials (fun u r p => [u.length, r.length, p.length]) "pw"
        { lookup := [] } "alice" "10.0.0.1").2.authenticate "alice" turn.Realm "192.168.7.9"
      = some [5, 7, 2] :=
  ((internalServer_authenticate_ignores_address.2.2
      (fun u r p => [u.length, r.length, p.length]) "pw"
      { lookup := [] } "alice" "10.0.0.1" turn.Realm "192.168.7.9").2).trans (by decide)

/-- C5: under a fixed clock the external issuer's `Credentials` returns
username `"<unixExpirySeconds>:<id>"` with expiry `now` plus the TTL,
and a password equal to the standard base64 encoding of the keyed
HMAC-SHA1 (the keyed hash `hmac hash` with SHA-1's block size) of that
exact username under the shared secret; independently recomputing the
signature over the returned username with the same secret therefore
equals the returned password. -/
theorem externalServer_credentials_roundTrip :
    ∀ (hash : List Nat → List Nat) (a : turn.ExternalServer) (now : Int) (id : String),
      (turn.ExternalServer.Credentials hash a now id).1
        = toString (now + a.ttlSeconds) ++ ":" ++ id ∧
      (turn.ExternalServer.Credentials hash a now id).2
        = turn.base64Encode (turn.hmac hash turn.sha1BlockSize a.secret
            (turn.strBytes (toString (now + a.ttlSeconds) ++ ":" ++ id))) ∧
      turn.recomputeSignature hash a.secret (turn.ExternalServer.Credentials hash a now id).1
        = (turn.ExternalServer.Credentials hash a now id).2 ∧
      (turn.newExternalServer a.secret).ttlSeconds = 24 * 60 * 60 :=
  fun hash a now id => ⟨rfl, rfl, rfl, rfl⟩

/-- C8 counterexample: with the hub accepting the probe after 4 seconds
and answering 2 seconds later, the source's `Count` (one shared
`time.After(5s)` deadline for both selects) reports the reply timeout,
whereas two independent 5-second timeouts would have returned the count:
the claimed independence fails at this concrete input. -/
theorem count_independent_timeouts_counterexample :
    ws.Rooms.Count 4 2 7 = (-1, ws.respondTimeoutReason) ∧
    ws.CountIndependentTimeouts 4 2 7 = (7, "") ∧
    ws.Rooms.Count 4 2 7 ≠ ws.CountIndependentTimeouts 4 2 7 := by
  refine ⟨by decide, by decide, ?_⟩
  intro h
  rw [show ws.Rooms.Count 4 2 7 = (-1, ws.respondTimeoutReason) from by decide,
    show ws.CountIndependentTimeouts 4 2 7 = (7, "") from by decide] at h
  simp at h

/-- C8 (amended): the room-count query waits on a single fixed 5-second
deadline measured from the call: it fails with the accept reason when
the hub has not accepted the probe within 5 seconds, fails with the
distinct respond reason when the hub's reply has not arrived by 5
seconds after the call (not 5 seconds after acceptance), and otherwise
returns the count; the two failure reasons are distinct. -/
theorem count_shared_deadline :
    ∀ (acceptAfter replyAfter : Nat) (roomCount : Int),
      (5 ≤ acceptAfter →
        ws.Rooms.Count acceptAfter replyAfter roomCount = (-1, ws.acceptTimeoutReason)) ∧
      (acceptAfter < 5 → 5 ≤ acceptAfter + replyAfter →
        ws.Rooms.Count acceptAfter replyAfter roomCount = (-1, ws.respondTimeoutReason)) ∧
      (acceptAfter + replyAfter < 5 →
        ws.Rooms.Count acceptAfter replyAfter roomCount = (roomCount, "")) ∧
      ws.acceptTimeoutReason ≠ ws.respondTimeoutReason := by
  intro tA tR c
  refine ⟨?_, ?_, ?_, by decide⟩
  · intro h
    simp [ws.Rooms.Count, h]
  · intro h1 h2
    simp [ws.Rooms.Count, h2]
    omega
  · intro h
    have h1 : ¬ 5 ≤ tA := by omega
    have h2 : ¬ 5 ≤ tA + tR := by omega
    simp [ws.Rooms.Count, h1, h2]

/-- C8 witness: the amended behaviour at concrete times, covering the
accept-timeout, the respond-timeout, and the successful case. -/
theorem count_shared_deadline_witness :
    ws.Rooms.Count 6 0 3 = (-1, ws.acceptTimeoutReason) ∧
    ws.Rooms.Count 2 3 4 = (-1, ws.respondTimeoutReason) ∧
    ws.Rooms.Count 1 2 9 = (9, "") :=
  ⟨(count_shared_deadline 6 0 3).1 (by decide),
   (count_shared_deadline 2 3 4).2.1 (by decide) (by decide),
   (count_shared_deadline 1 2 9).2.2.1 (by decide)⟩

/-- C9: enqueueing an outbound message through `writeTimeout` returns
within the fixed 2-second bound; the message is delivered to the queue
exactly once when the consumer accepts it within the bound, and
otherwise it is dropped with a logged warning, delivered zero times, and
never retried. -/
theorem writeTimeout_bounded_delivery :
    ∀ acceptAfter : Nat,
      (ws.writeTimeout acceptAfter).elapsedSeconds ≤ 2 ∧
      (ws.writeTimeout acceptAfter).deliveredCopies ≤ 1 ∧
      ((ws.writeTimeout acceptAfter).outcome = ws.DeliveryOutcome.delivered ↔ acceptAfter < 2) ∧
      ((ws.writeTimeout acceptAfter).outcome = ws.DeliveryOutcome.droppedWithWarning →
        (ws.writeTimeout acceptAfter).deliveredCopies = 0) ∧
      ((ws.writeTimeout acceptAfter).outcome = ws.DeliveryOutcome.delivered →
        (ws.writeTimeout acceptAfter).deliveredCopies = 1) := by
  intro t
  by_cases h : t < 2 <;> simp [ws.writeTimeout, h] <;> omega

/-- C9 witness: a consumer that never drains (acceptance would happen
only at time 100) makes the call return at the 2-second bound with zero
copies delivered; a prompt consumer gets exactly one copy. -/
theorem writeTimeout_bounded_delivery_witness :
    (ws.writeTimeout 100).elapsedSeconds ≤ 2 ∧
    (ws.writeTimeout 100).deliveredCopies = 0 ∧
    (ws.writeTimeout 0).deliveredCopies = 1 :=
  ⟨(writeTimeout_bounded_delivery 100).1,
   (writeTimeout_bounded_delivery 100).2.2.2.1 (by decide),
   (writeTimeout_bounded_delivery 0).2.2.2.2 (by decide)⟩

theorem closeAllSessions_fields (l : List (String × ws.RoomSession)) :
    ∀ r : ws.Room, (ws.closeAllSessions l r).1.ID = r.ID ∧
      (ws.closeAllSessions l r).1.Mode = r.Mode ∧
      (ws.closeAllSessions l r).1.Users = r.Users := by
  induction l with
  | nil => intro r; exact ⟨rfl, rfl, rfl⟩
  | cons kv rest ih =>
    intro r
    exact ⟨(ih _).1, (ih _).2.1, (ih _).2.2⟩

theorem closeAllSessions_revoked (l : List (String × ws.RoomSession)) :
    ∀ r : ws.Room, (ws.closeAllSessions l r).2 =
      (if r.Mode = ws.ConnectionMode.ConnectionTURN
       then l.flatMap (fun kv => [kv.1 ++ "host", kv.1 ++ "client"]) else []) := by
  induction l with
  | nil =>
    intro r
    by_cases h : r.Mode = ws.ConnectionMode.ConnectionTURN <;> simp [ws.closeAllSessions, h]
  | cons kv rest ih =>
    intro r
    have hmode : (ws.Room.closeSession r kv.1).1.Mode = r.Mode := rfl
    have hrev : (ws.Room.closeSession r kv.1).2
        = (if r.Mode = ws.ConnectionMode.ConnectionTURN
           then [kv.1 ++ "host", kv.1 ++ "client"] else []) := rfl
    have hstep : (ws.closeAllSessions (kv :: rest) r).2
        = (ws.Room.closeSession r kv.1).2
            ++ (ws.closeAllSessions rest (ws.Room.closeSession r kv.1).1).2 := rfl
    rw [hstep, ih ((ws.Room.closeSession r kv.1).1), hmode, hrev]
    by_cases h : r.Mode = ws.ConnectionMode.ConnectionTURN <;> simp [h]

theorem closeAllSessions_preserves_none (l : List (String × ws.RoomSession)) :
    ∀ (r : ws.Room) (k : String), lookupA r.Sessions k = none →
      lookupA (ws.closeAllSessions l r).1.Sessions k = none := by
  induction l with
  | nil => intro r k h; exact h
  | cons kv rest ih =>
    intro r k h
    exact ih _ k (lookupA_eraseA_none r.Sessions kv.1 k h)

theorem closeAllSessions_member_none (l : List (String × ws.RoomSession)) :
    ∀ (r : ws.Room) (k : String), k ∈ l.map Prod.fst →
      lookupA (ws.closeAllSessions l r).1.Sessions k = none := by
  induction l with
  | nil => simp
  | cons kv rest ih =>
    intro r k hk
    rw [List.map_cons, List.mem_cons] at hk
    rcases hk with h | h
    · subst h
      exact closeAllSessions_preserves_none rest _ kv.1 (lookupA_eraseA_self r.Sessions kv.1)
    · exact ih _ k h

theorem closeRoom_of_absent (rooms : ws.Rooms) (roomID : String)
    (h : lookupA rooms.RoomsMap roomID = none) :
    ws.Rooms.closeRoom rooms roomID = (rooms, []) := by
  simp [ws.Rooms.closeRoom, h]

theorem closeRoom_of_present (rooms : ws.Rooms) (roomID : String) (room : ws.Room)
    (h : lookupA rooms.RoomsMap roomID = some room) :
    ws.Rooms.closeRoom rooms roomID
      = ({ rooms with RoomsMap := eraseA rooms.RoomsMap roomID },
         (ws.closeAllSessions room.Sessions room).2) := by
  simp [ws.Rooms.closeRoom, h]

/-- C6: `closeRoom` leaves the state unchanged (and revokes nothing)
when the room is absent; when present it closes every open session of
that room, in TURN mode revoking exactly the two usernames
`<sid>host` and `<sid>client` for each session, removes each session
from the room's session map, removes the room, and leaves every other
room and the membership map untouched; a second `closeRoom` with the
same id is therefore a no-op. -/
theorem closeRoom_idempotent :
    ∀ (rooms : ws.Rooms) (roomID : String),
      (lookupA rooms.RoomsMap roomID = none →
        ws.Rooms.closeRoom rooms roomID = (rooms, [])) ∧
      (∀ room, lookupA rooms.RoomsMap roomID = some room →
        lookupA (ws.Rooms.closeRoom rooms roomID).1.RoomsMap roomID = none ∧
        (∀ rid, rid ≠ roomID →
          lookupA (ws.Rooms.closeRoom rooms roomID).1.RoomsMap rid
            = lookupA rooms.RoomsMap rid) ∧
        (ws.Rooms.closeRoom rooms roomID).1.connected = rooms.connected ∧
        (ws.Rooms.closeRoom rooms roomID).2 =
          (if room.Mode = ws.ConnectionMode.ConnectionTURN
           then room.Sessions.flatMap (fun kv => [kv.1 ++ "host", kv.1 ++ "client"])
           else []) ∧
        (∀ k ∈ room.Sessions.map Prod.fst,
          lookupA (ws.closeAllSessions room.Sessions room).1.Sessions k = none)) ∧
      (ws.Rooms.closeRoom (ws.Rooms.closeRoom rooms roomID).1 roomID
        = ((ws.Rooms.closeRoom rooms roomID).1, [])) := by
  intro rooms roomID
  refine ⟨closeRoom_of_absent rooms roomID, ?_, ?_⟩
  · intro room h
    rw [closeRoom_of_present rooms roomID room h]
    refine ⟨lookupA_eraseA_self _ _, ?_, rfl, closeAllSessions_revoked _ _,
      fun k hk => closeAllSessions_member_none room.Sessions room k hk⟩
    intro rid hrid
    exact lookupA_eraseA_ne _ _ _ (Ne.symm hrid)
  · cases h : lookupA rooms.RoomsMap roomID with
    | none =>
      rw [closeRoom_of_absent rooms roomID h]
      exact closeRoom_of_absent rooms roomID h
    | some room =>
      have h2 : lookupA (ws.Rooms.closeRoom rooms roomID).1.RoomsMap roomID = none := by
        rw [closeRoom_of_present rooms roomID room h]
        exact lookupA_eraseA_self _ _
      exact closeRoom_of_absent _ _ h2

/-- C6 witness: closing the sample TURN room revokes exactly
`s1host` and `s1client`, removes the room, and the second close is a
no-op. -/
theorem closeRoom_idempotent_witness :
    (ws.Rooms.closeRoom ws.sampleRooms "r1").2 = ["s1host", "s1client"] ∧
    lookupA (ws.Rooms.closeRoom ws.sampleRooms "r1").1.RoomsMap "r1" = none ∧
    ws.Rooms.closeRoom (ws.Rooms.closeRoom ws.sampleRooms "r1").1 "r1"
      = ((ws.Rooms.closeRoom ws.sampleRooms "r1").1, []) := by
  have h := (closeRoom_idempotent ws.sampleRooms "r1").2.1 ws.sampleTurnRoom (by decide)
  exact ⟨h.2.2.2.1.trans (by decide), h.1, (closeRoom_idempotent ws.sampleRooms "r1").2.2⟩

/-- C3: for host-offer and host-ice (mirrored for client-answer and
client-ice), given that the sender resolves to a room: an unknown
session id yields success with no state change and no message (the
event is ignored, not an error); a known session whose declared role
does not match the sender fails with permission denied; a known session
with the matching role relays the payload to the opposite party,
unmodified except for re-tagging. -/
theorem relay_event_authorization :
    ∀ (rooms : ws.Rooms) (current : ws.ClientInfo) (e : ws.P2PMessage) (room : ws.Room),
      ws.Rooms.CurrentRoom rooms current = Except.ok room →
      (lookupA room.Sessions e.SID = none →
        ws.HostOffer.Execute e rooms current = Except.ok (rooms, []) ∧
        ws.HostICE.Execute e rooms current = Except.ok (rooms, []) ∧
        ws.ClientAnswer.Execute e rooms current = Except.ok (rooms, []) ∧
        ws.ClientICE.Execute e rooms current = Except.ok (rooms, [])) ∧
      (∀ session, lookupA room.Sessions e.SID = some session →
        (session.Host = current.ID →
          ws.HostOffer.Execute e rooms current
            = Except.ok (rooms, [(session.Client, outgoing.Message.HostOffer e.SID e.Value)]) ∧
          ws.HostICE.Execute e rooms current
            = Except.ok (rooms, [(session.Client, outgoing.Message.HostICE e.SID e.Value)])) ∧
        (session.Host ≠ current.ID →
          ws.HostOffer.Execute e rooms current
            = Except.error ("permission denied for session " ++ e.SID) ∧
          ws.HostICE.Execute e rooms current
            = Except.error ("permission denied for session " ++ e.SID)) ∧
        (session.Client = current.ID →
          ws.ClientAnswer.Execute e rooms current
            = Except.ok (rooms, [(session.Host, outgoing.Message.ClientAnswer e.SID e.Value)]) ∧
          ws.ClientICE.Execute e rooms current
            = Except.ok (rooms, [(session.Host, outgoing.Message.ClientICE e.SID e.Value)])) ∧
        (session.Client ≠ current.ID →
          ws.ClientAnswer.Execute e rooms current
            = Except.error ("permission denied for session " ++ e.SID) ∧
          ws.ClientICE.Execute e rooms current
            = Except.error ("permission denied for session " ++ e.SID))) := by
  intro rooms current e room hroom
  constructor
  · intro hnone
    refine ⟨?_, ?_, ?_, ?_⟩ <;>
      simp [ws.HostOffer.Execute, ws.HostICE.Execute, ws.ClientAnswer.Execute,
        ws.ClientICE.Execute, hroom, hnone]
  · intro session hsess
    refine ⟨fun h => ?_, fun h => ?_, fun h => ?_, fun h => ?_⟩ <;>
      simp [ws.HostOffer.Execute, ws.HostICE.Execute, ws.ClientAnswer.Execute,
        ws.ClientICE.Execute, hroom, hsess, h]

/-- C3 witness: in the sample state, member `h` (host of session `s1`)
gets its offer relayed to client `c`; its client-answer attempt for the
same session is refused with permission denied; an unknown session id is
ignored with success. -/
theorem relay_event_authorization_witness :
    ws.HostOffer.Execute { SID := "s1", Value := "sdp" } ws.sampleRooms ws.sampleHostInfo
      = Except.ok (ws.sampleRooms, [("c", outgoing.Message.HostOffer "s1" "sdp")]) ∧
    ws.ClientAnswer.Execute { SID := "s1", Value := "sdp" } ws.sampleRooms ws.sampleHostInfo
      = Except.error ("permission denied for session " ++ "s1") ∧
    ws.HostOffer.Execute { SID := "nope", Value := "sdp" } ws.sampleRooms ws.sampleHostInfo
      = Except.ok (ws.sampleRooms, []) := by
  have h1 := relay_event_authorization ws.sampleRooms ws.sampleHostInfo
    { SID := "s1", Value := "sdp" } ws.sampleTurnRoom (by rfl)
  have h2 := relay_event_authorization ws.sampleRooms ws.sampleHostInfo
    { SID := "nope", Value := "sdp" } ws.sampleTurnRoom (by rfl)
  refine ⟨((h1.2 { Host := "h", Client := "c" } (by decide)).1 (by decide)).1, ?_,
    (h2.1 (by decide)).1⟩
  exact ((h1.2 { Host := "h", Client := "c" } (by decide)).2.2.2 (by decide)).1

theorem host_scope_ne_client_scope (sid : String) : sid ++ "host" ≠ sid ++ "client" := by
  intro h
  have h2 := congrArg String.data h
  rw [String.data_append, String.data_append] at h2
  exact absurd (List.append_cancel_left h2) (by decide)

/-- C4: `newSession` offers both parties empty ICE-server lists in local
mode; in stun mode both parties receive the identical credential-free
STUN URL list built from the configured public addresses and port; in
turn mode host and client each receive a credential minted for the
distinct scopes `<sessionId>host` respectively `<sessionId>client`,
bound to that party's address, with URL lists containing UDP and TCP
variants for the IPv4 address and bracketed-literal variants (UDP and
TCP) for the IPv6 address. -/
theorem newSession_ice_selection :
    ∀ (ctx : ws.HubCtx) (rooms : ws.Rooms) (r : ws.Room) (host client sid : String)
      (hostUser clientUser : ws.User),
      lookupA r.Users host = some hostUser →
      lookupA r.Users client = some clientUser →
      (r.Mode = ws.ConnectionMode.ConnectionLocal →
        ws.Room.newSession ctx rooms r host client sid
          = ({ r with Sessions := insertA r.Sessions sid { Host := host, Client := client } },
             [(host, outgoing.Message.HostSession client sid []),
              (client, outgoing.Message.ClientSession host sid [])])) ∧
      (r.Mode = ws.ConnectionMode.ConnectionSTUN →
        ws.Room.newSession ctx rooms r host client sid
          = ({ r with Sessions := insertA r.Sessions sid { Host := host, Client := client } },
             [(host, outgoing.Message.HostSession client sid
                 [{ URLs := ws.Rooms.addresses rooms "stun" ctx.v4 ctx.v6 false,
                    Username := "", Credential := "" }]),
              (client, outgoing.Message.ClientSession host sid
                 [{ URLs := ws.Rooms.addresses rooms "stun" ctx.v4 ctx.v6 false,
                    Username := "", Credential := "" }])])) ∧
      (r.Mode = ws.ConnectionMode.ConnectionTURN →
        ws.Room.newSession ctx rooms r host client sid
          = ({ r with Sessions := insertA r.Sessions sid { Host := host, Client := client } },
             [(host, outgoing.Message.HostSession client sid
                 [{ URLs := ws.Rooms.addresses rooms "turn" ctx.v4 ctx.v6 true,
                    Username := (ctx.credFn (sid ++ "host") hostUser.Addr).1,
                    Credential := (ctx.credFn (sid ++ "host") hostUser.Addr).2 }]),
              (client, outgoing.Message.ClientSession host sid
                 [{ URLs := ws.Rooms.addresses rooms "turn" ctx.v4 ctx.v6 true,
                    Username := (ctx.credFn (sid ++ "client") clientUser.Addr).1,
                    Credential := (ctx.credFn (sid ++ "client") clientUser.Addr).2 }])]) ∧
        sid ++ "host" ≠ sid ++ "client") ∧
      (∀ (scheme a b : String),
        ws.Rooms.addresses rooms scheme (some a) (some b) false
          = [scheme ++ ":" ++ a ++ ":" ++ rooms.config.TurnPort,
             scheme ++ ":[" ++ b ++ "]:" ++ rooms.config.TurnPort] ∧
        ws.Rooms.addresses rooms scheme (some a) (some b) true
          = [scheme ++ ":" ++ a ++ ":" ++ rooms.config.TurnPort,
             scheme ++ ":" ++ a ++ ":" ++ rooms.config.TurnPort ++ "?transport=tcp",
             scheme ++ ":[" ++ b ++ "]:" ++ rooms.config.TurnPort,
             scheme ++ ":[" ++ b ++ "]:" ++ rooms.config.TurnPort ++ "?transport=tcp"]) := by
  intro ctx rooms r host client sid hostUser clientUser hh hc
  refine ⟨fun hm => ?_, fun hm => ?_, fun hm => ⟨?_, host_scope_ne_client_scope sid⟩, ?_⟩
  · simp [ws.Room.newSession, ws.sessionICE, hm, hh, hc]
  · simp [ws.Room.newSession, ws.sessionICE, hm, hh, hc]
  · simp [ws.Room.newSession, ws.sessionICE, hm, hh, hc]
  · intro scheme a b
    exact ⟨by simp [ws.Rooms.addresses], by simp [ws.Rooms.addresses]⟩

/-- C4 witness: a fresh session `s9` in the sample TURN room between
members `h` (address 10.0.0.1) and `c` (address 10.0.0.2) hands the
two parties credentials scoped to `s9host` and `s9client` bound to
their addresses, with the four turn URL variants. -/
theorem newSession_ice_selection_witness :
    ws.Room.newSession ws.sampleCtx ws.sampleRooms ws.sampleTurnRoom "h" "c" "s9"
      = ({ ws.sampleTurnRoom with
            Sessions := insertA ws.sampleTurnRoom.Sessions "s9" { Host := "h", Client := "c" } },
         [("h", outgoing.Message.HostSession "c" "s9"
             [{ URLs := ["turn:1.2.3.4:3478", "turn:1.2.3.4:3478?transport=tcp",
                         "turn:[abcd::1]:3478", "turn:[abcd::1]:3478?transport=tcp"],
                Username := "s9host", Credential := "10.0.0.1-pw" }]),
          ("c", outgoing.Message.ClientSession "h" "s9"
             [{ URLs := ["turn:1.2.3.4:3478", "turn:1.2.3.4:3478?transport=tcp",
                         "turn:[abcd::1]:3478", "turn:[abcd::1]:3478?transport=tcp"],
                Username := "s9client", Credential := "10.0.0.2-pw" }])]) := by
  have h := (newSession_ice_selection ws.sampleCtx ws.sampleRooms ws.sampleTurnRoom "h" "c" "s9"
    { ID := "h", Addr := "10.0.0.1", Name := "Bob", Streaming := true, Owner := true }
    { ID := "c", Addr := "10.0.0.2", Name := "Amy", Streaming := false, Owner := false }
    (by decide) (by decide)).2.2.1 (by decide)
  exact h.1.trans (by decide)

theorem usersSortLess_asymm (a b : outgoing.User) :
    ws.usersSortLess a b = true → ws.usersSortLess b a = false := by
  cases ha : a.Owner <;> cases hb : b.Owner <;>
    cases has : a.Streaming <;> cases hbs : b.Streaming <;>
      simp [ws.usersSortLess, ha, hb, has, hbs] <;> exact fun h => le_of_lt h

theorem usersSortLE_total (a b : outgoing.User) :
    (ws.usersSortLE a b || ws.usersSortLE b a) = true := by
  unfold ws.usersSortLE
  cases h : ws.usersSortLess b a with
  | false => simp
  | true => simp [usersSortLess_asymm b a h]

theorem usersSortLess_trans_neg (a b c : outgoing.User) :
    ws.usersSortLess b a = false → ws.usersSortLess c b = false →
      ws.usersSortLess c a = false := by
  cases ha : a.Owner <;> cases hb : b.Owner <;> cases hc : c.Owner <;>
    cases has : a.Streaming <;> cases hbs : b.Streaming <;> cases hcs : c.Streaming <;>
      simp [ws.usersSortLess, ha, hb, hc, has, hbs, hcs] <;>
        exact fun h1 h2 => le_trans h1 h2

theorem usersSortLE_trans (a b c : outgoing.User) :
    ws.usersSortLE a b = true → ws.usersSortLE b c = true → ws.usersSortLE a c = true := by
  unfold ws.usersSortLE
  simp only [Bool.not_eq_true']
  intro h1 h2
  exact usersSortLess_trans_neg a b c h1 h2

theorem perm_insertSorted {α : Type} (le : α → α → Bool) (a : α) (l : List α) :
    (ws.insertSorted le a l).Perm (a :: l) := by
  induction l with
  | nil => simp [ws.insertSorted]
  | cons b t ih =>
    by_cases h : le a b = true
    · simp [ws.insertSorted, h]
    · simp only [ws.insertSorted, h, if_false, Bool.false_eq_true]
      exact (ih.cons b).trans (List.Perm.swap a b t)

theorem perm_sortBy {α : Type} (le : α → α → Bool) (l : List α) :
    (ws.sortBy le l).Perm l := by
  induction l with
  | nil => simp [ws.sortBy]
  | cons a t ih =>
    exact (perm_insertSorted le a (ws.sortBy le t)).trans (ih.cons a)

theorem pairwise_insertSorted {α : Type} (le : α → α → Bool)
    (htotal : ∀ a b, (le a b || le b a) = true)
    (htrans : ∀ a b c, le a b = true → le b c = true → le a c = true)
    (a : α) (l : List α) (h : List.Pairwise (fun x y => le x y = true) l) :
    List.Pairwise (fun x y => le x y = true) (ws.insertSorted le a l) := by
  induction l with
  | nil => simp [ws.insertSorted]
  | cons b t ih =>
    rcases List.pairwise_cons.mp h with ⟨hb, ht⟩
    by_cases hab : le a b = true
    · simp only [ws.insertSorted, hab, if_true]
      refine List.pairwise_cons.mpr ⟨?_, h⟩
      intro x hx
      rcases List.mem_cons.mp hx with rfl | hx
      · exact hab
      · exact htrans a b x hab (hb x hx)
    · have hba : le b a = true := by
        have htot := htotal a b
        rw [Bool.or_eq_true] at htot
        rcases htot with h1 | h1
        · exact absurd h1 hab
        · exact h1
      simp only [ws.insertSorted, hab, if_false, Bool.false_eq_true]
      refine List.pairwise_cons.mpr ⟨?_, ih ht⟩
      intro x hx
      have hx2 := (perm_insertSorted le a t).mem_iff.mp hx
      rcases List.mem_cons.mp hx2 with rfl | hx2
      · exact hba
      · exact hb x hx2

theorem pairwise_sortBy {α : Type} (le : α → α → Bool)
    (htotal : ∀ a b, (le a b || le b a) = true)
    (htrans : ∀ a b c, le a b = true → le b c = true → le a c = true)
    (l : List α) :
    List.Pairwise (fun x y => le x y = true) (ws.sortBy le l) := by
  induction l with
  | nil => simp [ws.sortBy]
  | cons a t ih =>
    exact pairwise_insertSorted le htotal htrans a (ws.sortBy le t) ih

/-- Message produced by `notifyInfoChanged` for one recipient `kv`: the
room snapshot holding the sorted record list. -/
theorem notifyInfoChanged_mem (r : ws.Room) (kv : String × ws.User) (hkv : kv ∈ r.Users) :
    (kv.1, outgoing.Message.Room r.ID
        (ws.sortBy ws.usersSortLE (r.Users.map (fun kv2 =>
          ({ ID := kv2.2.ID, Name := kv2.2.Name, Streaming := kv2.2.Streaming,
             You := kv2.2.ID == kv.2.ID, Owner := kv2.2.Owner } : outgoing.User)))))
      ∈ ws.Room.notifyInfoChanged r :=
  List.mem_map.mpr ⟨kv, hkv, rfl⟩

/-- C7: every room-info broadcast sends one message to every member;
each message is a room snapshot whose user list is a permutation of the
members' records, carries no inversion with respect to the source's
sort closure (owner first, then streaming, then case-sensitive name
ascending), and flags `You` exactly on records whose id is the
recipient's (exactly one record when user ids match the map keys and
the keys are distinct); on the spec's example room with users
A(owner, streaming, Bob), B(non-owner, streaming, Amy),
C(non-owner, idle, Zoe), every recipient's snapshot order is A, B, C. -/
theorem broadcast_ordering_personalization :
    (∀ (r : ws.Room),
      (ws.Room.notifyInfoChanged r).map Prod.fst = r.Users.map Prod.fst ∧
      ∀ kv ∈ r.Users, ∃ us,
        (kv.1, outgoing.Message.Room r.ID us) ∈ ws.Room.notifyInfoChanged r ∧
        us.Perm (r.Users.map (fun kv2 =>
          ({ ID := kv2.2.ID, Name := kv2.2.Name, Streaming := kv2.2.Streaming,
             You := kv2.2.ID == kv.2.ID, Owner := kv2.2.Owner } : outgoing.User))) ∧
        List.Pairwise (fun a b => ws.usersSortLess b a = false) us ∧
        (∀ rec ∈ us, rec.You = (rec.ID == kv.2.ID)) ∧
        ((∀ kv2 ∈ r.Users, kv2.2.ID = kv2.1) → (r.Users.map Prod.fst).Nodup →
          (us.filter (fun rec => rec.You)).length = 1)) ∧
    ws.Room.notifyInfoChanged ws.sampleSortRoom =
      [("idA", outgoing.Message.Room "rs"
         [{ ID := "idA", Name := "Bob", Streaming := true, You := true, Owner := true },
          { ID := "idB", Name := "Amy", Streaming := true, You := false, Owner := false },
          { ID := "idC", Name := "Zoe", Streaming := false, You := false, Owner := false }]),
       ("idB", outgoing.Message.Room "rs"
         [{ ID := "idA", Name := "Bob", Streaming := true, You := false, Owner := true },
          { ID := "idB", Name := "Amy", Streaming := true, You := true, Owner := false },
          { ID := "idC", Name := "Zoe", Streaming := false, You := false, Owner := false }]),
       ("idC", outgoing.Message.Room "rs"
         [{ ID := "idA", Name := "Bob", Streaming := true, You := false, Owner := true },
          { ID := "idB", Name := "Amy", Streaming := true, You := false, Owner := false },
          { ID := "idC", Name := "Zoe", Streaming := false, You := true, Owner := false }])] := by
  constructor
  · intro r
    constructor
    · simp [ws.Room.notifyInfoChanged]
    · intro kv hkv
      refine ⟨_, notifyInfoChanged_mem r kv hkv, perm_sortBy _ _, ?_, ?_, ?_⟩
      · exact (pairwise_sortBy ws.usersSortLE usersSortLE_total usersSortLE_trans _).imp
          (fun h => by simpa [ws.usersSortLE] using h)
      · intro rec hrec
        have hmem := (perm_sortBy ws.usersSortLE _).mem_iff.mp hrec
        rcases List.mem_map.mp hmem with ⟨kv2, _, rfl⟩
        rfl
      · intro hids hnodup
        have hperm := (perm_sortBy ws.usersSortLE (r.Users.map (fun kv2 =>
          ({ ID := kv2.2.ID, Name := kv2.2.Name, Streaming := kv2.2.Streaming,
             You := kv2.2.ID == kv.2.ID, Owner := kv2.2.Owner } : outgoing.User)))).filter
          (fun rec => rec.You)
        rw [hperm.length_eq, ← List.countP_eq_length_filter, List.countP_map]
        have hcongr : List.countP ((fun (rec : outgoing.User) => rec.You) ∘ (fun kv2 =>
            ({ ID := kv2.2.ID, Name := kv2.2.Name, Streaming := kv2.2.Streaming,
               You := kv2.2.ID == kv.2.ID, Owner := kv2.2.Owner } : outgoing.User))) r.Users
            = List.countP (fun kv2 => kv2.1 == kv.1) r.Users := by
          refine List.countP_congr ?_
          intro kv2 hkv2
          simp only [Function.comp]
          rw [hids kv2 hkv2, hids kv hkv]
        rw [hcongr]
        have hcount : List.countP (fun kv2 => kv2.1 == kv.1) r.Users
            = List.count kv.1 (r.Users.map Prod.fst) := by
          rw [List.count_eq_countP, List.countP_map]
          rfl
        rw [hcount]
        exact List.count_eq_one_of_mem hnodup (List.mem_map.mpr ⟨kv, hkv, rfl⟩)
  · decide

/-- C7 witness: the general clause applied to the concrete example room
and its member A, with the membership, id and distinctness hypotheses
discharged at the concrete input. -/
theorem broadcast_ordering_personalization_witness :
    ∃ us,
      ("idA", outgoing.Message.Room "rs" us) ∈ ws.Room.notifyInfoChanged ws.sampleSortRoom ∧
      us.Perm (ws.sampleSortRoom.Users.map (fun kv2 =>
        ({ ID := kv2.2.ID, Name := kv2.2.Name, Streaming := kv2.2.Streaming,
           You := kv2.2.ID == "idA", Owner := kv2.2.Owner } : outgoing.User))) ∧
      List.Pairwise (fun a b => ws.usersSortLess b a = false) us ∧
      (∀ rec ∈ us, rec.You = (rec.ID == "idA")) ∧
      ((∀ kv2 ∈ ws.sampleSortRoom.Users, kv2.2.ID = kv2.1) →
        (ws.sampleSortRoom.Users.map Prod.fst).Nodup →
        (us.filter (fun rec => rec.You)).length = 1) :=
  (broadcast_ordering_personalization.1 ws.sampleSortRoom).2
    ("idA", { ID := "idA", Addr := "a1", Name := "Bob", Streaming := true, Owner := true })
    (by decide)

theorem lookupA_append_none {α : Type} (l1 l2 : List (String × α)) (k : String)
    (h1 : lookupA l1 k = none) (h2 : lookupA l2 k = none) :
    lookupA (l1 ++ l2) k = none := by
  rw [lookupA_append_right l1 l2 k h1]
  exact h2

theorem newSession_fst (ctx : ws.HubCtx) (rooms : ws.Rooms) (r : ws.Room)
    (host client sid : String) :
    (ws.Room.newSession ctx rooms r host client sid).1
      = { r with Sessions := insertA r.Sessions sid { Host := host, Client := client } } := rfl

theorem newSession_snd (ctx : ws.HubCtx) (rooms : ws.Rooms) (r : ws.Room)
    (host client sid : String) :
    (ws.Room.newSession ctx rooms r host client sid).2
      = [(host, outgoing.Message.HostSession client sid
            (ws.sessionICE ctx rooms r.Mode sid ((lookupA r.Users host).getD default).Addr
              ((lookupA r.Users client).getD default).Addr).1),
         (client, outgoing.Message.ClientSession host sid
            (ws.sessionICE ctx rooms r.Mode sid ((lookupA r.Users host).getD default).Addr
              ((lookupA r.Users client).getD default).Addr).2)] := rfl

theorem newSession_snd_congr (ctx : ws.HubCtx) (rooms : ws.Rooms) (r r2 : ws.Room)
    (host client sid : String) (hU : r2.Users = r.Users) (hM : r2.Mode = r.Mode) :
    (ws.Room.newSession ctx rooms r2 host client sid).2
      = (ws.Room.newSession ctx rooms r host client sid).2 := by
  rw [newSession_snd, newSession_snd, hU, hM]

theorem joinCatchUp_fields (ctx : ws.HubCtx) (rooms : ws.Rooms) (current : ws.ClientInfo) :
    ∀ (l : List (String × ws.User)) (sids : List String) (r : ws.Room),
      (ws.joinCatchUp ctx rooms current l sids r).1.Users = r.Users ∧
      (ws.joinCatchUp ctx rooms current l sids r).1.ID = r.ID ∧
      (ws.joinCatchUp ctx rooms current l sids r).1.Mode = r.Mode ∧
      (ws.joinCatchUp ctx rooms current l sids r).1.CloseOnOwnerLeave = r.CloseOnOwnerLeave := by
  intro l
  induction l with
  | nil => intro sids r; exact ⟨rfl, rfl, rfl, rfl⟩
  | cons kv rest ih =>
    intro sids r
    by_cases h : current.ID = kv.2.ID ∨ kv.2.Streaming = false
    · simpa [ws.joinCatchUp, h] using ih sids r
    · simpa [ws.joinCatchUp, h] using
        ih sids.tail ((ws.Room.newSession ctx rooms r kv.2.ID current.ID (sids.headD "")).1)

theorem joinCatchUp_spec (ctx : ws.HubCtx) (rooms : ws.Rooms) (current : ws.ClientInfo)
    (rb : ws.Room) :
    ∀ (l : List (String × ws.User)) (sids : List String) (r : ws.Room),
      r.Users = rb.Users → r.Mode = rb.Mode →
      (ws.joinStreamers current l).length ≤ sids.length →
      (sids.take (ws.joinStreamers current l).length).Nodup →
      (∀ s ∈ sids.take (ws.joinStreamers current l).length, lookupA r.Sessions s = none) →
      (ws.joinCatchUp ctx rooms current l sids r).1.Sessions
        = r.Sessions ++ ((ws.joinStreamers current l).zip sids).map
            (fun p => (p.2, ({ Host := p.1.2.ID, Client := current.ID } : ws.RoomSession))) ∧
      (ws.joinCatchUp ctx rooms current l sids r).2
        = ((ws.joinStreamers current l).zip sids).flatMap
            (fun p => (ws.Room.newSession ctx rooms rb p.1.2.ID current.ID p.2).2) := by
  intro l
  induction l with
  | nil =>
    intro sids r hU hM hlen hnodup habs
    simp [ws.joinCatchUp, ws.joinStreamers]
  | cons kv rest ih =>
    intro sids r hU hM hlen hnodup habs
    by_cases h : current.ID = kv.2.ID ∨ kv.2.Streaming = false
    · have hpred : (!(current.ID == kv.2.ID) && kv.2.Streaming) = false := by
        rcases h with h | h
        · simp [h]
        · simp [h]
      have hfil : ws.joinStreamers current (kv :: rest) = ws.joinStreamers current rest := by
        simp [ws.joinStreamers, List.filter_cons, hpred]
      have hskip : ws.joinCatchUp ctx rooms current (kv :: rest) sids r
          = ws.joinCatchUp ctx rooms current rest sids r := by
        simp [ws.joinCatchUp, h]
      rw [hfil] at hlen hnodup habs
      rw [hskip, hfil]
      exact ih sids r hU hM hlen hnodup habs
    · push_neg at h
      have hid : (current.ID == kv.2.ID) = false := beq_eq_false_iff_ne.mpr h.1
      have hstream : kv.2.Streaming = true := Bool.ne_false_iff.mp h.2
      have hpred : (!(current.ID == kv.2.ID) && kv.2.Streaming) = true := by
        rw [hid, hstream]; rfl
      have hfil : ws.joinStreamers current (kv :: rest)
          = kv :: ws.joinStreamers current rest := by
        simp [ws.joinStreamers, List.filter_cons, hpred]
      cases sids with
      | nil =>
        rw [hfil] at hlen
        simp at hlen
      | cons s0 ss =>
        have hcond : ¬ (current.ID = kv.2.ID ∨ kv.2.Streaming = false) := by
          intro hc
          rcases hc with hc | hc
          · exact h.1 hc
          · exact h.2 hc
        have hstep1 : (ws.joinCatchUp ctx rooms current (kv :: rest) (s0 :: ss) r).1
            = (ws.joinCatchUp ctx rooms current rest ss
                (ws.Room.newSession ctx rooms r kv.2.ID current.ID s0).1).1 := by
          simp [ws.joinCatchUp, hcond]
        have hstep2 : (ws.joinCatchUp ctx rooms current (kv :: rest) (s0 :: ss) r).2
            = (ws.Room.newSession ctx rooms r kv.2.ID current.ID s0).2
              ++ (ws.joinCatchUp ctx rooms current rest ss
                   (ws.Room.newSession ctx rooms r kv.2.ID current.ID s0).1).2 := by
          simp [ws.joinCatchUp, hcond]
        rw [hfil] at hlen hnodup habs
        have hlen2 : (ws.joinStreamers current rest).length ≤ ss.length := by
          simpa using hlen
        rw [List.length_cons, List.take_succ_cons] at hnodup habs
        have hs0abs : lookupA r.Sessions s0 = none :=
          habs s0 (List.mem_cons_self s0 _)
        have hr1sess : (ws.Room.newSession ctx rooms r kv.2.ID current.ID s0).1.Sessions
            = r.Sessions ++ [(s0, ({ Host := kv.2.ID, Client := current.ID } : ws.RoomSession))] := by
          rw [newSession_fst]
          exact insertA_of_lookupA_none r.Sessions s0 _ hs0abs
        have hnodup2 := (List.nodup_cons.mp hnodup).2
        have hs0nmem := (List.nodup_cons.mp hnodup).1
        have habs2 : ∀ s ∈ ss.take (ws.joinStreamers current rest).length,
            lookupA (ws.Room.newSession ctx rooms r kv.2.ID current.ID s0).1.Sessions s
              = none := by
          intro s hs
          have hne : ¬ s0 = s := by
            intro he
            exact hs0nmem (he ▸ hs)
          rw [hr1sess]
          refine lookupA_append_none _ _ _ (habs s (List.mem_cons_of_mem s0 hs)) ?_
          simp [lookupA, hne]
        have hih := ih ss (ws.Room.newSession ctx rooms r kv.2.ID current.ID s0).1
          ((newSession_fst ctx rooms r kv.2.ID current.ID s0 ▸ hU : _))
          ((newSession_fst ctx rooms r kv.2.ID current.ID s0 ▸ hM : _))
          hlen2 hnodup2 habs2
        constructor
        · rw [hstep1, hih.1, hr1sess, hfil, List.zip_cons_cons, List.map_cons,
            List.append_assoc, List.singleton_append]
        · rw [hstep2, hih.2, hfil, List.zip_cons_cons, List.flatMap_cons,
            newSession_snd_congr ctx rooms rb r kv.2.ID current.ID s0 hU hM]

theorem room_eq_of_fields (a b : ws.Room) (h1 : a.ID = b.ID)
    (h2 : a.CloseOnOwnerLeave = b.CloseOnOwnerLeave) (h3 : a.Mode = b.Mode)
    (h4 : a.Users = b.Users) (h5 : a.Sessions = b.Sessions) : a = b := by
  cases a
  cases b
  simp_all

theorem join_execute_ok (ctx : ws.HubCtx) (e : ws.Join) (rooms : ws.Rooms)
    (current : ws.ClientInfo) (room : ws.Room)
    (h1 : lookupD rooms.connected current.ID = "")
    (h2 : lookupA rooms.RoomsMap e.ID = some room)
    (hlen : (ws.joinStreamers current
        (insertA room.Users current.ID (ws.joinUser ctx e current))).length
      ≤ ctx.sessionIds.length)
    (hnodup : (ctx.sessionIds.take (ws.joinStreamers current
        (insertA room.Users current.ID (ws.joinUser ctx e current))).length).Nodup)
    (habs : ∀ s ∈ ctx.sessionIds.take (ws.joinStreamers current
        (insertA room.Users current.ID (ws.joinUser ctx e current))).length,
      lookupA room.Sessions s = none) :
    ws.Join.Execute ctx e rooms current = Except.ok
      ({ rooms with
          RoomsMap := insertA rooms.RoomsMap e.ID
            { room with
                Users := insertA room.Users current.ID (ws.joinUser ctx e current),
                Sessions := room.Sessions ++
                  ((ws.joinStreamers current
                      (insertA room.Users current.ID (ws.joinUser ctx e current))).zip
                    ctx.sessionIds).map
                    (fun p => (p.2, ({ Host := p.1.2.ID, Client := current.ID } : ws.RoomSession))) },
          connected := insertA rooms.connected current.ID room.ID },
       ({ room with
           Users := insertA room.Users current.ID (ws.joinUser ctx e current)
           : ws.Room }).notifyInfoChanged ++
         ((ws.joinStreamers current
             (insertA room.Users current.ID (ws.joinUser ctx e current))).zip
           ctx.sessionIds).flatMap
           (fun p => (ws.Room.newSession ctx rooms
             { room with Users := insertA room.Users current.ID (ws.joinUser ctx e current) }
             p.1.2.ID current.ID p.2).2)) := by
  have hspec := joinCatchUp_spec ctx rooms current
    { room with Users := insertA room.Users current.ID (ws.joinUser ctx e current) }
    (insertA room.Users current.ID (ws.joinUser ctx e current))
    ctx.sessionIds
    { room with Users := insertA room.Users current.ID (ws.joinUser ctx e current) }
    rfl rfl hlen hnodup habs
  have hfields := joinCatchUp_fields ctx rooms current
    (insertA room.Users current.ID (ws.joinUser ctx e current))
    ctx.sessionIds
    { room with Users := insertA room.Users current.ID (ws.joinUser ctx e current) }
  have hroom : (ws.joinCatchUp ctx rooms current
      (insertA room.Users current.ID (ws.joinUser ctx e current))
      ctx.sessionIds
      { room with Users := insertA room.Users current.ID (ws.joinUser ctx e current) }).1
      = { room with
          Users := insertA room.Users current.ID (ws.joinUser ctx e current),
          Sessions := room.Sessions ++
            ((ws.joinStreamers current
                (insertA room.Users current.ID (ws.joinUser ctx e current))).zip
              ctx.sessionIds).map
              (fun p => (p.2, ({ Host := p.1.2.ID, Client := current.ID } : ws.RoomSession))) } := by
    refine room_eq_of_fields _ _ hfields.2.1 hfields.2.2.2 hfields.2.2.1 hfields.1 ?_
    exact hspec.1
  simp only [ws.Join.Execute, h1, ne_eq, not_true_eq_false, if_false, h2,
    not_false_eq_true, reduceIte]
  rw [hroom, hspec.2]

/-- C2: the join handler fails with *already in a room* when the
sender's membership record is non-empty and with *room does not exist*
when the room id does not resolve; otherwise it adds the sender to the
room as a non-owner, non-streaming user whose name is the authenticated
username if the sender is authenticated, else the supplied username,
else the randomly generated name, records the membership, sends a room
snapshot to every member, and opens one session per already-streaming
member with that member as host and the sender as client (the fresh
session ids being assumed pairwise distinct and unused, as `xid.New()`
guarantees). -/
theorem join_contract :
    ∀ (ctx : ws.HubCtx) (e : ws.Join) (rooms : ws.Rooms) (current : ws.ClientInfo),
      (lookupD rooms.connected current.ID ≠ "" →
        ws.Join.Execute ctx e rooms current
          = Except.error "cannot join room, you are already in one") ∧
      (lookupD rooms.connected current.ID = "" → lookupA rooms.RoomsMap e.ID = none →
        ws.Join.Execute ctx e rooms current
          = Except.error ("room with id " ++ e.ID ++ " does not exist")) ∧
      ((current.Authenticated = true → current.AuthenticatedUser ≠ "" →
          ws.joinName ctx e current = current.AuthenticatedUser) ∧
       (current.Authenticated = false → e.UserName ≠ "" →
          ws.joinName ctx e current = e.UserName) ∧
       ((if current.Authenticated then current.AuthenticatedUser else e.UserName) = "" →
          ws.joinName ctx e current = ctx.randName)) ∧
      (∀ room, lookupD rooms.connected current.ID = "" →
        lookupA rooms.RoomsMap e.ID = some room →
        (ws.joinStreamers current
            (insertA room.Users current.ID (ws.joinUser ctx e current))).length
          ≤ ctx.sessionIds.length →
        (ctx.sessionIds.take (ws.joinStreamers current
            (insertA room.Users current.ID (ws.joinUser ctx e current))).length).Nodup →
        (∀ s ∈ ctx.sessionIds.take (ws.joinStreamers current
            (insertA room.Users current.ID (ws.joinUser ctx e current))).length,
          lookupA room.Sessions s = none) →
        ∃ sent,
          ws.Join.Execute ctx e rooms current = Except.ok
            ({ rooms with
                RoomsMap := insertA rooms.RoomsMap e.ID
                  { room with
                      Users := insertA room.Users current.ID (ws.joinUser ctx e current),
                      Sessions := room.Sessions ++
                        ((ws.joinStreamers current
                            (insertA room.Users current.ID (ws.joinUser ctx e current))).zip
                          ctx.sessionIds).map
                          (fun p => (p.2,
                            ({ Host := p.1.2.ID, Client := current.ID } : ws.RoomSession))) },
                connected := insertA rooms.connected current.ID room.ID }, sent) ∧
          (∀ kv ∈ insertA room.Users current.ID (ws.joinUser ctx e current),
            ∃ us, (kv.1, outgoing.Message.Room room.ID us) ∈ sent) ∧
          (∀ p ∈ (ws.joinStreamers current
              (insertA room.Users current.ID (ws.joinUser ctx e current))).zip ctx.sessionIds,
            ∃ ice1 ice2,
              (p.1.2.ID, outgoing.Message.HostSession current.ID p.2 ice1) ∈ sent ∧
              (current.ID, outgoing.Message.ClientSession p.1.2.ID p.2 ice2) ∈ sent) ∧
          lookupA (insertA rooms.connected current.ID room.ID) current.ID = some room.ID ∧
          lookupA (insertA room.Users current.ID (ws.joinUser ctx e current)) current.ID
            = some (ws.joinUser ctx e current) ∧
          (ws.joinUser ctx e current).Owner = false ∧
          (ws.joinUser ctx e current).Streaming = false ∧
          (ws.joinUser ctx e current).ID = current.ID ∧
          (ws.joinUser ctx e current).Name = ws.joinName ctx e current) := by
  intro ctx e rooms current
  refine ⟨?_, ?_, ⟨?_, ?_, ?_⟩, ?_⟩
  · intro h
    simp [ws.Join.Execute, h]
  · intro h1 h2
    simp [ws.Join.Execute, h1, h2]
  · intro hauth hne
    simp [ws.joinName, hauth, hne]
  · intro hauth hne
    simp [ws.joinName, hauth, hne]
  · intro h0
    simp [ws.joinName, h0]
  · intro room h1 h2 hlen hnodup habs
    refine ⟨_, join_execute_ok ctx e rooms current room h1 h2 hlen hnodup habs, ?_, ?_,
      lookupA_insertA_self _ _ _, lookupA_insertA_self _ _ _, rfl, rfl, rfl, rfl⟩
    · intro kv hkv
      exact ⟨_, List.mem_append_left _ (notifyInfoChanged_mem
        { room with Users := insertA room.Users current.ID (ws.joinUser ctx e current) }
        kv hkv)⟩
    · intro p hp
      have hin1 : ((p.1.2.ID : String), outgoing.Message.HostSession current.ID p.2
          (ws.sessionICE ctx rooms room.Mode p.2
            ((lookupA (insertA room.Users current.ID (ws.joinUser ctx e current))
              p.1.2.ID).getD default).Addr
            ((lookupA (insertA room.Users current.ID (ws.joinUser ctx e current))
              current.ID).getD default).Addr).1)
          ∈ (ws.Room.newSession ctx rooms
              { room with Users := insertA room.Users current.ID (ws.joinUser ctx e current) }
              p.1.2.ID current.ID p.2).2 := by
        rw [newSession_snd]
        exact List.mem_cons_self _ _
      have hin2 : ((current.ID : String), outgoing.Message.ClientSession p.1.2.ID p.2
          (ws.sessionICE ctx rooms room.Mode p.2
            ((lookupA (insertA room.Users current.ID (ws.joinUser ctx e current))
              p.1.2.ID).getD default).Addr
            ((lookupA (insertA room.Users current.ID (ws.joinUser ctx e current))
              current.ID).getD default).Addr).2)
          ∈ (ws.Room.newSession ctx rooms
              { room with Users := insertA room.Users current.ID (ws.joinUser ctx e current) }
              p.1.2.ID current.ID p.2).2 := by
        rw [newSession_snd]
        exact List.mem_cons_of_mem _ (List.mem_cons_self _ _)
      exact ⟨_, _,
        List.mem_append_right _ (List.mem_flatMap.mpr ⟨p, hp, hin1⟩),
        List.mem_append_right _ (List.mem_flatMap.mpr ⟨p, hp, hin2⟩)⟩

/-- C2 witness: joining the sample room from an already-connected sender
fails with *already in a room*; a fresh sender `n` joining `r1` gets its
membership recorded and is inserted as a non-owner. -/
theorem join_contract_witness :
    ws.Join.Execute ws.sampleCtx { ID := "r1", UserName := "Ned" } ws.sampleRooms
        ws.sampleHostInfo
      = Except.error "cannot join room, you are already in one" ∧
    lookupA (insertA ws.sampleRooms.connected "n" "r1") "n" = some "r1" ∧
    (ws.joinUser ws.sampleCtx { ID := "r1", UserName := "Ned" }
      { ID := "n", Authenticated := false, AuthenticatedUser := "", Addr := "10.0.0.3" }).Owner
      = false := by
  obtain ⟨sent, hok, hbr, hsess, hconn, huser, how, hst, hid, hname⟩ :=
    (join_contract ws.sampleCtx { ID := "r1", UserName := "Ned" } ws.sampleRooms
      { ID := "n", Authenticated := false, AuthenticatedUser := "", Addr := "10.0.0.3" }).2.2.2
      ws.sampleTurnRoom (by decide) (by decide) (by decide) (by decide) (by decide)
  exact ⟨(join_contract ws.sampleCtx { ID := "r1", UserName := "Ned" } ws.sampleRooms
      ws.sampleHostInfo).1 (by decide), hconn, how⟩

theorem lookupD_eq_of_lookupA {l : List (String × String)} {k v : String}
    (h : lookupA l k = some v) : lookupD l k = v := by
  unfold lookupD
  rw [h]
  rfl

theorem lookupD_eq_empty_of_none {l : List (String × String)} {k : String}
    (h : lookupA l k = none) : lookupD l k = "" := by
  unfold lookupD
  rw [h]
  rfl

theorem lookupD_eraseA_ne (l : List (String × String)) (k k2 : String) (h : k ≠ k2) :
    lookupD (eraseA l k) k2 = lookupD l k2 := by
  unfold lookupD
  rw [lookupA_eraseA_ne _ _ _ h]

theorem lookupD_insertA_self (l : List (String × String)) (k v : String) :
    lookupD (insertA l k v) k = v := by
  unfold lookupD
  rw [lookupA_insertA_self]
  rfl

theorem lookupD_insertA_ne (l : List (String × String)) (k k2 v : String) (h : k ≠ k2) :
    lookupD (insertA l k v) k2 = lookupD l k2 := by
  unfold lookupD
  rw [lookupA_insertA_ne _ _ _ _ h]

theorem inv_implies_atMostOne (s : ws.Rooms) (h : ws.RoomsInv s) :
    ws.memberOfAtMostOneRoom s := by
  intro uid rid1 rid2 r1 r2 h1 h2 m1 m2
  obtain ⟨u1, hu1⟩ := Option.isSome_iff_exists.mp m1
  obtain ⟨u2, hu2⟩ := Option.isSome_iff_exists.mp m2
  have e1 := (h rid1 r1 h1).2.2 uid u1 hu1
  have e2 := (h rid2 r2 h2).2.2 uid u2 hu2
  exact e1.symm.trans e2

theorem closeRoom_preserves_inv (t : ws.Rooms) (rid : String) (h : ws.RoomsInv t) :
    ws.RoomsInv (ws.Rooms.closeRoom t rid).1 := by
  cases hl : lookupA t.RoomsMap rid with
  | none =>
    rw [closeRoom_of_absent t rid hl]
    exact h
  | some room =>
    rw [closeRoom_of_present t rid room hl]
    intro rid2 room2 h2
    by_cases he : rid = rid2
    · rw [← he, lookupA_eraseA_self] at h2
      cases h2
    · rw [show ({ t with RoomsMap := eraseA t.RoomsMap rid } : ws.Rooms).RoomsMap
          = eraseA t.RoomsMap rid from rfl, lookupA_eraseA_ne _ _ _ he] at h2
      exact h rid2 room2 h2

theorem closeSessionsOfHost_fields (hostID : String) :
    ∀ (l : List (String × ws.RoomSession)) (r : ws.Room),
      (ws.closeSessionsOfHost hostID l r).1.Users = r.Users ∧
      (ws.closeSessionsOfHost hostID l r).1.ID = r.ID ∧
      (ws.closeSessionsOfHost hostID l r).1.CloseOnOwnerLeave = r.CloseOnOwnerLeave := by
  intro l
  induction l with
  | nil => intro r; exact ⟨rfl, rfl, rfl⟩
  | cons kv rest ih =>
    intro r
    by_cases h : kv.2.Host = hostID
    · simpa [ws.closeSessionsOfHost, h] using ih ((ws.Room.closeSession r kv.1).1)
    · simpa [ws.closeSessionsOfHost, h] using ih r

theorem eraseA_connected_inv (s : ws.Rooms) (current : ws.ClientInfo)
    (hInv : ws.RoomsInv s)
    (hsafe : ∀ rid room, lookupA s.RoomsMap rid = some room →
      ∀ u, lookupA room.Users current.ID = some u → False) :
    ws.RoomsInv { s with connected := eraseA s.connected current.ID } := by
  intro rid room h
  obtain ⟨hne, hid, husers⟩ := hInv rid room h
  refine ⟨hne, hid, ?_⟩
  intro uid u hu
  by_cases he : current.ID = uid
  · exact absurd (he ▸ hu : lookupA room.Users current.ID = some u)
      (fun hx => hsafe rid room h u hx)
  · show lookupD (eraseA s.connected current.ID) uid = rid
    rw [lookupD_eraseA_ne _ _ _ he]
    exact husers uid u hu

theorem disconnected_preserves_inv (s : ws.Rooms) (current : ws.ClientInfo)
    (hInv : ws.RoomsInv s) :
    ws.RoomsInv (ws.Disconnected.Execute s current).1 := by
  cases hconn : lookupA s.connected current.ID with
  | none =>
    have hstep : (ws.Disconnected.Execute s current).1
        = { s with connected := eraseA s.connected current.ID } := by
      simp [ws.Disconnected.Execute, hconn]
    rw [hstep]
    refine eraseA_connected_inv s current hInv ?_
    intro rid room h u hu
    have hold := (hInv rid room h).2.2 current.ID u hu
    rw [lookupD_eq_empty_of_none hconn] at hold
    exact (hInv rid room h).1 hold.symm
  | some roomID =>
    cases hroom : lookupA s.RoomsMap roomID with
    | none =>
      have hstep : (ws.Disconnected.Execute s current).1
          = { s with connected := eraseA s.connected current.ID } := by
        simp [ws.Disconnected.Execute, hconn, hroom]
      rw [hstep]
      refine eraseA_connected_inv s current hInv ?_
      intro rid room h u hu
      have hold := (hInv rid room h).2.2 current.ID u hu
      rw [lookupD_eq_of_lookupA hconn] at hold
      rw [← hold] at h
      rw [hroom] at h
      cases h
    | some room =>
      have hs2inv : ws.RoomsInv
          { s with connected := eraseA s.connected current.ID,
                   RoomsMap := insertA s.RoomsMap roomID
                     (ws.closeSessionsOfHost current.ID
                       ({ room with Users := eraseA room.Users current.ID } : ws.Room).Sessions
                       { room with Users := eraseA room.Users current.ID }).1 } := by
        obtain ⟨hne0, hid0, husers0⟩ := hInv roomID room hroom
        intro rid room2 h0
        have h2 : lookupA (insertA s.RoomsMap roomID
            (ws.closeSessionsOfHost current.ID
              ({ room with Users := eraseA room.Users current.ID } : ws.Room).Sessions
              { room with Users := eraseA room.Users current.ID }).1) rid = some room2 := h0
        have hf := closeSessionsOfHost_fields current.ID
          ({ room with Users := eraseA room.Users current.ID } : ws.Room).Sessions
          { room with Users := eraseA room.Users current.ID }
        by_cases he : roomID = rid
        · rw [← he, lookupA_insertA_self] at h2
          obtain rfl := Option.some.inj h2
          rw [← he]
          refine ⟨hne0, ?_, ?_⟩
          · rw [hf.2.1]
            exact hid0
          · intro uid u hu
            rw [hf.1] at hu
            have hne : current.ID ≠ uid := by
              intro he2
              rw [← he2, lookupA_eraseA_self] at hu
              cases hu
            rw [lookupA_eraseA_ne _ _ _ hne] at hu
            show lookupD (eraseA s.connected current.ID) uid = roomID
            rw [lookupD_eraseA_ne _ _ _ hne]
            exact husers0 uid u hu
        · rw [lookupA_insertA_ne _ _ _ _ he] at h2
          obtain ⟨hne2, hid2, husers2⟩ := hInv rid room2 h2
          refine ⟨hne2, hid2, ?_⟩
          intro uid u hu
          have hold := husers2 uid u hu
          by_cases he2 : current.ID = uid
          · rw [← he2, lookupD_eq_of_lookupA hconn] at hold
            exact absurd hold he
          · show lookupD (eraseA s.connected current.ID) uid = rid
            rw [lookupD_eraseA_ne _ _ _ he2]
            exact hold
      simp only [ws.Disconnected.Execute, hconn, hroom]
      split
      · exact closeRoom_preserves_inv _ roomID hs2inv
      · exact hs2inv


theorem applyEvent_join_inv (ctx : ws.HubCtx) (e : ws.Join) (current : ws.ClientInfo)
    (s : ws.Rooms) (hInv : ws.RoomsInv s) :
    ws.RoomsInv (ws.applyEvent s (ws.HubEvent.joinEv ctx e current)) := by
  by_cases h1 : lookupD s.connected current.ID = ""
  · cases h2 : lookupA s.RoomsMap e.ID with
    | none =>
      have hx : ws.Join.Execute ctx e s current
          = Except.error ("room with id " ++ e.ID ++ " does not exist") := by
        simp [ws.Join.Execute, h1, h2]
      simp only [ws.applyEvent, hx]
      exact disconnected_preserves_inv s current hInv
    | some room =>
      have hx : ws.Join.Execute ctx e s current
          = Except.ok
            ({ s with
                RoomsMap := insertA s.RoomsMap e.ID
                  (ws.joinCatchUp ctx s current
                    (insertA room.Users current.ID (ws.joinUser ctx e current))
                    ctx.sessionIds
                    { room with
                        Users := insertA room.Users current.ID (ws.joinUser ctx e current) }).1,
                connected := insertA s.connected current.ID room.ID },
             ({ room with
                 Users := insertA room.Users current.ID (ws.joinUser ctx e current)
                 : ws.Room }).notifyInfoChanged
               ++ (ws.joinCatchUp ctx s current
                    (insertA room.Users current.ID (ws.joinUser ctx e current))
                    ctx.sessionIds
                    { room with
                        Users := insertA room.Users current.ID (ws.joinUser ctx e current) }).2) := by
        simp [ws.Join.Execute, h1, h2]
      simp only [ws.applyEvent, hx]
      have hfields := joinCatchUp_fields ctx s current
        (insertA room.Users current.ID (ws.joinUser ctx e current))
        ctx.sessionIds
        { room with Users := insertA room.Users current.ID (ws.joinUser ctx e current) }
      obtain ⟨hneE, hidE, husersE⟩ := hInv e.ID room h2
      intro rid room2 hr0
      have hr : lookupA (insertA s.RoomsMap e.ID
          (ws.joinCatchUp ctx s current
            (insertA room.Users current.ID (ws.joinUser ctx e current))
            ctx.sessionIds
            { room with
                Users := insertA room.Users current.ID (ws.joinUser ctx e current) }).1) rid
          = some room2 := hr0
      by_cases he : e.ID = rid
      · rw [← he, lookupA_insertA_self] at hr
        obtain rfl := Option.some.inj hr
        rw [← he]
        refine ⟨hneE, ?_, ?_⟩
        · rw [hfields.2.1]
          exact hidE
        · intro uid u hu
          rw [hfields.1] at hu
          by_cases he2 : current.ID = uid
          · show lookupD (insertA s.connected current.ID room.ID) uid = e.ID
            rw [← he2, lookupD_insertA_self]
            exact hidE
          · rw [lookupA_insertA_ne _ _ _ _ he2] at hu
            show lookupD (insertA s.connected current.ID room.ID) uid = e.ID
            rw [lookupD_insertA_ne _ _ _ _ he2]
            exact husersE uid u hu
      · rw [lookupA_insertA_ne _ _ _ _ he] at hr
        obtain ⟨hne2, hid2, husers2⟩ := hInv rid room2 hr
        refine ⟨hne2, hid2, ?_⟩
        intro uid u hu
        have hold := husers2 uid u hu
        by_cases he2 : current.ID = uid
        · rw [← he2, h1] at hold
          exact absurd hold.symm hne2
        · show lookupD (insertA s.connected current.ID room.ID) uid = rid
          rw [lookupD_insertA_ne _ _ _ _ he2]
          exact hold
  · have hx : ws.Join.Execute ctx e s current
        = Except.error "cannot join room, you are already in one" := by
      simp [ws.Join.Execute, h1]
    simp only [ws.applyEvent, hx]
    exact disconnected_preserves_inv s current hInv

theorem applyEvent_preserves_inv (s : ws.Rooms) (ev : ws.HubEvent)
    (hInv : ws.RoomsInv s) : ws.RoomsInv (ws.applyEvent s ev) := by
  cases ev with
  | joinEv ctx e current => exact applyEvent_join_inv ctx e current s hInv
  | disconnectedEv current =>
    simp only [ws.applyEvent]
    exact disconnected_preserves_inv s current hInv

theorem runEvents_preserves_inv :
    ∀ (evs : List ws.HubEvent) (s : ws.Rooms), ws.RoomsInv s →
      ws.RoomsInv (ws.runEvents s evs) := by
  intro evs
  induction evs with
  | nil => intro s h; exact h
  | cons ev rest ih =>
    intro s h
    exact ih (ws.applyEvent s ev) (applyEvent_preserves_inv s ev h)

/-- C1: processing any sequence of join and disconnect events preserves
the hub invariant, so at every point each connection identity is a
member of at most one room (the membership map trivially records at
most one room id per connection); and a join from a sender whose
membership record is non-empty fails with *already in a room*, leaving
every state component unchanged. -/
theorem membership_exclusivity :
    (∀ (s : ws.Rooms) (evs : List ws.HubEvent), ws.RoomsInv s →
      ws.RoomsInv (ws.runEvents s evs) ∧ ws.memberOfAtMostOneRoom (ws.runEvents s evs)) ∧
    (∀ (ctx : ws.HubCtx) (e : ws.Join) (s : ws.Rooms) (current : ws.ClientInfo),
      lookupD s.connected current.ID ≠ "" →
      ws.Join.Execute ctx e s current
        = Except.error "cannot join room, you are already in one") := by
  constructor
  · intro s evs h
    have h2 := runEvents_preserves_inv evs s h
    exact ⟨h2, inv_implies_atMostOne _ h2⟩
  · intro ctx e s current h
    simp [ws.Join.Execute, h]

/-- C1 witness: from the empty hub state, a join followed by a
disconnect preserves the invariant and membership exclusivity; and in
the sample state, member `h` (whose membership record is `r1`) cannot
join again. -/
theorem membership_exclusivity_witness :
    (ws.RoomsInv (ws.runEvents
        { RoomsMap := [], connected := [], config := { TurnPort := "3478" } }
        [ws.HubEvent.joinEv ws.sampleCtx { ID := "r1", UserName := "Ned" }
           { ID := "n", Authenticated := false, AuthenticatedUser := "", Addr := "10.0.0.3" },
         ws.HubEvent.disconnectedEv
           { ID := "n", Authenticated := false, AuthenticatedUser := "", Addr := "10.0.0.3" }]) ∧
     ws.memberOfAtMostOneRoom (ws.runEvents
        { RoomsMap := [], connected := [], config := { TurnPort := "3478" } }
        [ws.HubEvent.joinEv ws.sampleCtx { ID := "r1", UserName := "Ned" }
           { ID := "n", Authenticated := false, AuthenticatedUser := "", Addr := "10.0.0.3" },
         ws.HubEvent.disconnectedEv
           { ID := "n", Authenticated := false, AuthenticatedUser := "", Addr := "10.0.0.3" }])) ∧
    ws.Join.Execute ws.sampleCtx { ID := "r1", UserName := "Ned" } ws.sampleRooms
        ws.sampleHostInfo
      = Except.error "cannot join room, you are already in one" :=
  ⟨membership_exclusivity.1
      { RoomsMap := [], connected := [], config := { TurnPort := "3478" } } _
      (by intro rid room h; simp [lookupA] at h),
   membership_exclusivity.2 ws.sampleCtx { ID := "r1", UserName := "Ned" } ws.sampleRooms
      ws.sampleHostInfo (by decide)⟩
